import Mathlib

/-!
# Deadpool battleship: placement validator and session orchestrator

A shallow embedding of `battleship/clients/golang/disposers/disposer.go`
(`IsDispositionValid`) and of `battleship/server.go` (`Connect`, `Disconnect`,
`Play` and the notification helpers), followed by theorems about them.

Conventions of the embedding:
* Go `int32` values are integers kept in range by `wrap32`; Go `int` values are
  kept in range by `wrapInt` (64-bit two's complement).
* A nil pointer dereference and the closing of a closed channel are Go run-time
  panics; they are an explicit result (`Res.panic`).
* The handlers are executed one at a time (the mutual-exclusion lock is not
  modelled); `Connect` is split at its blocking receive `<-c.leave`, and in a
  sequence of steps (`handle`) the rest of it is a step of its own, taken at
  any time after the channel is closed.
* `Game` and `Notifier` are not part of the two source files: their operations
  are parameters of the model (`Deps`).
-/

namespace Deadpool

/-! ## Machine integers -/

/-- Two's complement wrap-around of an integer to Go's `int32`. -/
def wrap32 (x : Int) : Int := (x + 2147483648) % 4294967296 - 2147483648

/-- Largest value of Go's `int` (64-bit targets). -/
def maxInt : Int := 9223372036854775807

/-- Two's complement wrap-around of an integer to Go's 64-bit `int`. -/
def wrapInt (x : Int) : Int :=
  (x + 9223372036854775808) % 18446744073709551616 - 9223372036854775808

/-! ## Placement validator (`disposer.go`) -/

/-- The fields of `proto.Ship` that the validator reads: `Pos` and `Size` are
`int32`, `Vert` is the orientation. -/
structure Ship where
  Pos : Int
  Size : Int
  Vert : Bool
  deriving DecidableEq, Repr

/-- The local `f` of `IsDispositionValid`: `1`, or `10` when `ship.Vert`. -/
def stepOf (ship : Ship) : Int := if ship.Vert then 10 else 1

/-- The map key `ship.Pos+int32(i*f)` computed by the inner loop. -/
def cellKey (ship : Ship) (i : Nat) : Int :=
  wrap32 (ship.Pos + wrap32 ((i : Int) * stepOf ship))

/-- Inner loop `for i := 0; i < int(ship.Size); i++` over the remaining values
of `i`, on the map `set` (an association list, newest entry first). `none` is
the early `return false`. -/
def shipLoop (ship : Ship) : List Nat → List (Int × Int) → Option (List (Int × Int))
  | [], set => some set
  | i :: rest, set =>
    if (set.lookup (cellKey ship i)).isSome then none
    else shipLoop ship rest ((cellKey ship i, ship.Size) :: set)

/-- Outer loop `for _, ship := range ships` (the elements of the slice are
non-nil ships). -/
def shipsLoop : List Ship → List (Int × Int) → Bool
  | [], _ => true
  | ship :: rest, set =>
    match shipLoop ship (List.range ship.Size.toNat) set with
    | none => false
    | some set1 => shipsLoop rest set1

/-- The function `IsDispositionValid` of `disposer.go`. -/
def IsDispositionValid (ships : List Ship) : Bool := shipsLoop ships []

/-- The cells a ship occupies, in the words of the specification:
`p, p+step, ..., p+(n-1)*step` with `step = 1` if horizontal, `10` if vertical
(no machine arithmetic). -/
def occupiedCells (ship : Ship) : List Int :=
  (List.range ship.Size.toNat).map (fun (i : Nat) => ship.Pos + (i : Int) * stepOf ship)

/-- No 32-bit overflow occurs while the validator processes `ship`: every
product `i*f` and every sum `ship.Pos + i*f` the loop computes, for
`0 <= i < ship.Size`, is an `int32` value. -/
def NoOverflow (ship : Ship) : Prop :=
  ∀ i ∈ List.range ship.Size.toNat,
    (i : Int) * stepOf ship < 2147483648 ∧
    -2147483648 ≤ ship.Pos + (i : Int) * stepOf ship ∧
    ship.Pos + (i : Int) * stepOf ship < 2147483648

instance (ship : Ship) : Decidable (NoOverflow ship) := by
  unfold NoOverflow; infer_instance

/-- The keys the inner loop inserts for `ship`, with machine arithmetic. -/
def wrappedCells (ship : Ship) : List Int :=
  (List.range ship.Size.toNat).map (cellKey ship)


/-! ## Session orchestrator (`server.go`) -/

/-- The enumeration `proto.Tile`. -/
inductive Tile where
  | UNKNOWN | MISS | SHIP | SUNK
  deriving DecidableEq, Repr

/-- The enumeration `proto.PlayReply_Status`. -/
inductive PlayStatus where
  | ACCEPTED | NOT_YOUR_TURN | INVALID_POSITION
  deriving DecidableEq, Repr

/-- The message `proto.PlayReply`. -/
structure PlayReply where
  Tile : Tile
  Status : PlayStatus
  deriving DecidableEq, Repr

/-- The enumeration `proto.GameStatus_Status`. -/
inductive GameStatus where
  | PLAYING | VICTORY | DEFEAT
  deriving DecidableEq, Repr

/-- The message `proto.Notification`: a connect reply carrying the assigned id,
or a game status (`Play` flag and `Status`). -/
inductive Notification where
  | ConnectReply (Id : Int)
  | GameStatus (Play : Bool) (Status : GameStatus)
  deriving DecidableEq, Repr

/-- The message `proto.ConnectRequest`. -/
structure ConnectRequest where
  Name : String
  Ships : List Ship
  deriving DecidableEq, Repr

/-- The message `proto.PlayRequest` (`Id` and `Position` are `int32`). -/
structure PlayRequest where
  Id : Int
  Position : Int
  deriving DecidableEq, Repr

/-- The struct `Client`. `ID` is an `int32`; `leave` is the handle of the
channel made for the client. -/
structure Client where
  Name : String
  ID : Int
  leave : Nat
  deriving DecidableEq, Repr

/-- The errors the handlers return. -/
inductive Err where
  /-- The error "2 clients already connected" (`SessionFull`). -/
  | clientsAlreadyConnected
  /-- The error "Unknown id %d" (`UnknownParticipant`). -/
  | unknownId (id : Int)
  /-- The error returned by `Game.SaveDisposition` (`InvalidPlacement`). -/
  | saveDisposition
  /-- The error returned by `Notifier.Notify` (`DeliveryError`). -/
  | notify
  deriving DecidableEq, Repr

/-- How a handler ends: it returns a value, returns an error, or the Go
run time panics (nil pointer dereference, close of a closed channel). -/
inductive Res (α : Type) where
  | ok (a : α)
  | error (e : Err)
  | panic
  deriving DecidableEq, Repr

/-- The two slots of the server. -/
inductive Slot where
  | blue | red
  deriving DecidableEq, Repr

/-- The operations of `Game` and `Notifier` that `server.go` calls. Their code
is not in the two source files, so they are parameters of the model: `G` is the
state behind `*Game`, `N` the state behind `Notifier`. `SaveDisposition` and
`Notify` return `true` when the Go error is nil; a stream is a handle. -/
structure Deps (G N : Type) where
  NewGame : G
  SaveDisposition : G → Int → List Ship → Bool × G
  RegisterPly : G → Int → Int → Tile × G
  Winner : G → Int
  NewNotifier : N
  Register : N → Client → Nat → N
  Unregister : N → Client → N
  Notify : N → Client → Notification → Bool × N

/-- The struct `Server` (without the lock), together with the state of the
`leave` channels: `chans` channels have been made, those in `closed` are
closed. -/
structure Server (G N : Type) where
  blue : Option Client
  red : Option Client
  lastID : Int
  current : Int
  game : G
  notifier : N
  plies : Int
  chans : Nat
  closed : List Nat
  deriving DecidableEq

/-- The `Server` value built by `NewServer`. -/
def NewServer {G N : Type} (d : Deps G N) : Server G N :=
  { blue := none, red := none, lastID := 0, current := 0,
    game := d.NewGame, notifier := d.NewNotifier, plies := 0,
    chans := 0, closed := [] }

/-- The method `Server.ConnectReplyNotification`. -/
def ConnectReplyNotification (c : Client) : Notification :=
  Notification.ConnectReply c.ID

/-- The method `Server.GameStatusNotification` for a non-nil client `c`. -/
def GameStatusNotification {G N : Type} (d : Deps G N) (s : Server G N) (c : Client) :
    Notification :=
  let play : Bool := s.current == c.ID
  let w := d.Winner s.game
  let status :=
    if c.ID = w then GameStatus.VICTORY
    else if w ≠ -1 then GameStatus.DEFEAT
    else GameStatus.PLAYING
  Notification.GameStatus play status

/-- The method `Server.DispatchGameStatusNotifications`; building the notification of a
nil client dereferences it (panic). -/
def DispatchGameStatusNotifications {G N : Type} (d : Deps G N) (s : Server G N) :
    Res Unit × Server G N :=
  match s.blue with
  | none => (Res.panic, s)
  | some b =>
    let n1 := d.Notify s.notifier b (GameStatusNotification d s b)
    let s1 := { s with notifier := n1.2 }
    if n1.1 = false then (Res.error Err.notify, s1)
    else
      match s1.red with
      | none => (Res.panic, s1)
      | some r =>
        let n2 := d.Notify s1.notifier r (GameStatusNotification d s1 r)
        let s2 := { s1 with notifier := n2.2 }
        if n2.1 = false then (Res.error Err.notify, s2)
        else (Res.ok (), s2)

/-- The deferred calls of `Connect`, run when it returns after the client was
put in `slot`: `s.notifier.Unregister(&c)`, then the slot is set to nil. -/
def connectDeferred {G N : Type} (d : Deps G N) (s : Server G N) (c : Client)
    (slot : Slot) : Server G N :=
  let s1 := { s with notifier := d.Unregister s.notifier c }
  match slot with
  | Slot.blue => { s1 with blue := none }
  | Slot.red => { s1 with red := none }

/-- Lines 90-97 of `Server.Connect`: if both slots are non-nil, the ply
counter is set to 0, the turn is given to `s.blue.ID` and the game status is
dispatched (the returned error is dropped). -/
def beginMatch {G N : Type} (d : Deps G N) (s : Server G N) : Res Unit × Server G N :=
  match s.blue, s.red with
  | some b, some _ =>
    let s1 := { s with plies := 0 }
    let s2 := { s1 with current := b.ID }
    let dn := DispatchGameStatusNotifications d s2
    match dn.1 with
    | Res.panic => (Res.panic, dn.2)
    | _ => (Res.ok (), dn.2)
  | _, _ => (Res.ok (), s)

/-- The handler `Server.Connect` up to its receive `<-c.leave`. `Res.ok (c, slot)` means
that the call has admitted client `c` into `slot` and waits on `c.leave`; an
error is a call that returned (its deferred calls have run). -/
def Connect {G N : Type} (d : Deps G N) (s : Server G N) (inp : ConnectRequest)
    (stream : Nat) : Res (Client × Slot) × Server G N :=
  if s.blue.isSome ∧ s.red.isSome then (Res.error Err.clientsAlreadyConnected, s)
  else
    let s1 := { s with lastID := wrap32 (s.lastID + 1) }
    let c : Client := { ID := s1.lastID, Name := inp.Name, leave := s1.chans }
    let s2 := { s1 with chans := s1.chans + 1 }
    let sd := d.SaveDisposition s2.game c.ID inp.Ships
    let s3 := { s2 with game := sd.2 }
    if sd.1 = false then (Res.error Err.saveDisposition, s3)
    else
      let slot := if s3.blue.isNone then Slot.blue else Slot.red
      let s4 : Server G N :=
        match slot with
        | Slot.blue => { s3 with blue := some c }
        | Slot.red => { s3 with red := some c }
      let s5 := { s4 with notifier := d.Register s4.notifier c stream }
      let nt := d.Notify s5.notifier c (ConnectReplyNotification c)
      let s6 := { s5 with notifier := nt.2 }
      if nt.1 = false then (Res.error Err.notify, connectDeferred d s6 c slot)
      else
        let bm := beginMatch d s6
        match bm.1 with
        | Res.panic => (Res.panic, bm.2)
        | _ => (Res.ok (c, slot), bm.2)

/-- The rest of `Server.Connect` once `c.leave` is closed: `return nil`, then
the deferred calls. -/
def ConnectReturn {G N : Type} (d : Deps G N) (s : Server G N) (c : Client)
    (slot : Slot) : Server G N :=
  connectDeferred d s c slot

/-- The test `p != nil && p.ID == id` of `Disconnect`. -/
def holdsID (p : Option Client) (id : Int) : Bool :=
  match p with
  | none => false
  | some c => c.ID == id

/-- The end of `Disconnect` for the client `c` taken out of its slot:
`s.current = -1` and `close(c.leave)` (closing a closed channel panics). -/
def disconnectClient {G N : Type} (s : Server G N) (c : Option Client) :
    Res Unit × Server G N :=
  let s1 := { s with current := -1 }
  match c with
  | none => (Res.panic, s1)
  | some c =>
    if c.leave ∈ s1.closed then (Res.panic, s1)
    else (Res.ok (), { s1 with closed := c.leave :: s1.closed })

/-- The handler `Server.Disconnect`. -/
def Disconnect {G N : Type} (s : Server G N) (id : Int) : Res Unit × Server G N :=
  if holdsID s.blue id then disconnectClient { s with blue := none } s.blue
  else if holdsID s.red id then disconnectClient { s with red := none } s.red
  else (Res.error (Err.unknownId id), s)

/-- Lines 149-153 of `Server.Play`: the id the turn goes to, `s.red.ID` if
`s.current == s.blue.ID` and `s.blue.ID` otherwise; `none` is the dereference
of a nil slot. -/
def nextTurn {G N : Type} (s : Server G N) : Option Int :=
  match s.blue with
  | none => none
  | some b => if s.current = b.ID then s.red.map Client.ID else some b.ID

/-- Lines 160-167 of `Server.Play`: the game is replaced by `NewGame()` if
`Winner()` is `s.blue.ID`, else if it is `s.red.ID`; `none` is the dereference
of a nil slot. -/
def newGameIfWon {G N : Type} (d : Deps G N) (s : Server G N) : Option (Server G N) :=
  let w := d.Winner s.game
  match s.blue with
  | none => none
  | some b =>
    if w = b.ID then some { s with game := d.NewGame }
    else
      match s.red with
      | none => none
      | some r => if w = r.ID then some { s with game := d.NewGame } else some s

/-- The handler `Server.Play` from line 133 on, for the client `c` selected by the id. -/
def playAs {G N : Type} (d : Deps G N) (s : Server G N) (c : Client)
    (inp : PlayRequest) : Res PlayReply × Server G N :=
  if inp.Id ≠ s.current then
    (Res.ok { Tile := Tile.UNKNOWN, Status := PlayStatus.NOT_YOUR_TURN }, s)
  else if inp.Position < 0 ∨ inp.Position > 100 then
    (Res.ok { Tile := Tile.UNKNOWN, Status := PlayStatus.INVALID_POSITION }, s)
  else
    let rp := d.RegisterPly s.game c.ID inp.Position
    let t := rp.1
    let s1 := { s with game := rp.2 }
    match nextTurn s1 with
    | none => (Res.panic, s1)
    | some cur =>
      let s2 := { s1 with current := cur }
      let s3 := { s2 with plies := wrapInt (s2.plies + 1) }
      let dn := DispatchGameStatusNotifications d s3
      match dn.1 with
      | Res.panic => (Res.panic, dn.2)
      | _ =>
        match newGameIfWon d dn.2 with
        | none => (Res.panic, dn.2)
        | some s4 => (Res.ok { Tile := t, Status := PlayStatus.ACCEPTED }, s4)

/-- The handler `Server.Play`: `s.blue.ID` and `s.red.ID` are read without a nil test. -/
def Play {G N : Type} (d : Deps G N) (s : Server G N) (inp : PlayRequest) :
    Res PlayReply × Server G N :=
  match s.blue with
  | none => (Res.panic, s)
  | some b =>
    if b.ID = inp.Id then playAs d s b inp
    else
      match s.red with
      | none => (Res.panic, s)
      | some r =>
        if r.ID = inp.Id then playAs d s r inp
        else (Res.error (Err.unknownId inp.Id), s)

/-- A sequence of `Play` calls, one after the other: the results in order and
the final state. -/
def playAll {G N : Type} (d : Deps G N) (s : Server G N) :
    List PlayRequest → List (Res PlayReply) × Server G N
  | [] => ([], s)
  | inp :: rest =>
    let r := Play d s inp
    let rs := playAll d r.2 rest
    (r.1 :: rs.1, rs.2)

/-- The call returned a reply with status `ACCEPTED`. -/
def accepted (r : Res PlayReply) : Bool :=
  match r with
  | Res.ok rep => rep.Status == PlayStatus.ACCEPTED
  | _ => false

/-! ## Board engine and notifier, from the specification -/

/-- Modelled from the spec: the Board Engine state (`Game`), whose source is
not among the files. It holds the placements by participant id, the resolved
cells (target id, position, outcome) and the winner (`-1` is "none", the
value `GameStatusNotification` tests). -/
structure Game where
  dispositions : List (Int × List Ship)
  shots : List (Int × Int × Tile)
  winner : Int
  deriving DecidableEq, Repr

/-- Modelled from the spec: `NewGame`, a match with no placement, no resolved
cell and no winner. -/
def Game.NewGame : Game := { dispositions := [], shots := [], winner := -1 }

/-- Modelled from the spec: `save_disposition` stores the placement for the
participant (last write wins) and fails if the Placement Validator rejects
it. -/
def Game.SaveDisposition (g : Game) (id : Int) (ships : List Ship) : Bool × Game :=
  if IsDispositionValid ships then
    (true, { g with dispositions := (id, ships) :: g.dispositions.filter (fun e => e.1 != id) })
  else (false, g)

/-- Modelled from the spec: the positions of `target` already hit. -/
def Game.hitCells (g : Game) (target : Int) : List Int :=
  (g.shots.filter (fun sh => sh.1 == target && sh.2.2 != Tile.MISS)).map (fun sh => sh.2.1)

/-- Modelled from the spec: `register_ply` resolves a shot of `id` against the
opponent's grid: `MISS` if no ship is there, `SUNK` if the hit completes the
ship, `SHIP` otherwise; the cell is marked resolved; when every cell of every
opponent ship is hit the winner becomes `id`. A second shot at a resolved cell
returns the recorded outcome and changes nothing. -/
def Game.RegisterPly (g : Game) (id : Int) (pos : Int) : Tile × Game :=
  match g.dispositions.find? (fun e => e.1 != id) with
  | none => (Tile.MISS, g)
  | some (opp, ships) =>
    match g.shots.find? (fun sh => sh.1 == opp && sh.2.1 == pos) with
    | some sh => (sh.2.2, g)
    | none =>
      match ships.find? (fun ship => decide (pos ∈ occupiedCells ship)) with
      | none => (Tile.MISS, { g with shots := (opp, pos, Tile.MISS) :: g.shots })
      | some ship =>
        let hits := pos :: g.hitCells opp
        let t := if (occupiedCells ship).all (fun c => decide (c ∈ hits)) then Tile.SUNK
          else Tile.SHIP
        let won := ships.all (fun sh => (occupiedCells sh).all (fun c => decide (c ∈ hits)))
        (t, { g with shots := (opp, pos, t) :: g.shots,
                     winner := if won then id else g.winner })

/-- Modelled from the spec: the Notifier state, whose source is not among the
files: the binding of participants to streams and the messages delivered
(newest first). -/
structure Notifier where
  streams : List (Client × Nat)
  sent : List (Nat × Notification)
  deriving DecidableEq, Repr

/-- Modelled from the spec: `register` binds the participant to its channel,
overwriting a prior binding. -/
def Notifier.Register (n : Notifier) (c : Client) (stream : Nat) : Notifier :=
  { n with streams := (c, stream) :: n.streams.filter (fun e => e.1 != c) }

/-- Modelled from the spec: `unregister` removes the binding. -/
def Notifier.Unregister (n : Notifier) (c : Client) : Notifier :=
  { n with streams := n.streams.filter (fun e => e.1 != c) }

/-- Modelled from the spec: `notify` fails if the channel is absent, and
delivers the message otherwise (the transport write succeeds). -/
def Notifier.Notify (n : Notifier) (c : Client) (msg : Notification) : Bool × Notifier :=
  match n.streams.lookup c with
  | none => (false, n)
  | some stream => (true, { n with sent := (stream, msg) :: n.sent })

/-- Modelled from the spec: the Board Engine and the Notifier as the
operations `server.go` calls. -/
def specDeps : Deps Game Notifier :=
  { NewGame := Game.NewGame
    SaveDisposition := Game.SaveDisposition
    RegisterPly := Game.RegisterPly
    Winner := Game.winner
    NewNotifier := { streams := [], sent := [] }
    Register := Notifier.Register
    Unregister := Notifier.Unregister
    Notify := Notifier.Notify }

/-- A disposition of the five ships of sizes 5, 4, 3, 3, 2 on rows 0 to 4. -/
def fleetA : List Ship :=
  [⟨0, 5, false⟩, ⟨10, 4, false⟩, ⟨20, 3, false⟩, ⟨30, 3, false⟩, ⟨40, 2, false⟩]

/-- A disposition of the five ships, all vertical, in columns 0 to 4. -/
def fleetB : List Ship :=
  [⟨50, 5, true⟩, ⟨51, 4, true⟩, ⟨52, 3, true⟩, ⟨53, 3, true⟩, ⟨54, 2, true⟩]

/-- The server after the admission of "A" with `fleetA` on stream 0 into a
new server. -/
def oneConnected : Server Game Notifier :=
  (Connect specDeps (NewServer specDeps) ⟨"A", fleetA⟩ 0).2

/-- The server after the further admission of "B" with `fleetB` on stream 1:
blue is "A" with id 1, red is "B" with id 2, the turn is held by 1. -/
def bothConnected : Server Game Notifier :=
  (Connect specDeps oneConnected ⟨"B", fleetB⟩ 1).2

/-- A placement of a single ship of two cells, 0 and 1. -/
def patrolOnly : List Ship := [⟨0, 2, false⟩]

/-- A placement of two ships that share cell 1. -/
def overlapping : List Ship := [⟨0, 2, false⟩, ⟨1, 2, true⟩]

/-- Blue is "A" (id 1, `fleetA`), red is "B" (id 2, `patrolOnly`); "A" has hit
cell 0 and "B" has fired at cell 0: the turn is held by 1 and cell 1 is the
last cell of the only ship of "B". -/
def matchPoint : Server Game Notifier :=
  (playAll specDeps (Connect specDeps oneConnected ⟨"B", patrolOnly⟩ 1).2
    [⟨1, 0⟩, ⟨2, 0⟩]).2

/-! ## Sequences of calls -/

/-- A step of the server: a `Connect` call (up to its receive on `c.leave`, or
to its return with an error), a `Disconnect` call, a `Play` call, or the
return of the `Connect` call of client `c`, admitted into `slot`, once
`c.leave` is closed (the code after the receive: lines 99-100 and the deferred
calls). -/
inductive Call where
  | connect (inp : ConnectRequest) (stream : Nat)
  | disconnect (id : Int)
  | play (inp : PlayRequest)
  | connectReturn (c : Client) (slot : Slot)
  deriving DecidableEq, Repr

/-- The state after the server has taken the step `call`; the steps are taken
one at a time. A `Disconnect` only closes `c.leave`: the `Connect` that waits
on it returns in a step of its own, right away or after later calls. That
step does nothing while the channel is open. The state does not record which
`Connect` calls are waiting, so the step is defined for every client and slot:
the sequences of steps include every run of the program. -/
def handle {G N : Type} (d : Deps G N) (s : Server G N) : Call → Server G N
  | Call.connect inp stream => (Connect d s inp stream).2
  | Call.disconnect id => (Disconnect s id).2
  | Call.play inp => (Play d s inp).2
  | Call.connectReturn c slot =>
    if c.leave ∈ s.closed then ConnectReturn d s c slot else s

/-- The state after the steps, taken one after the other. -/
def handleAll {G N : Type} (d : Deps G N) (s : Server G N) : List Call → Server G N
  | [] => s
  | call :: rest => handleAll d (handle d s call) rest

/-- The number of `Connect` calls in a sequence of calls. -/
def connectCount : List Call → Nat
  | [] => 0
  | Call.connect _ _ :: rest => connectCount rest + 1
  | _ :: rest => connectCount rest

/-- The id of the client admitted by `call`, if it is a `Connect` that admits
one. -/
def admittedId {G N : Type} (d : Deps G N) (s : Server G N) : Call → List Int
  | Call.connect inp stream =>
    match (Connect d s inp stream).1 with
    | Res.ok (c, _) => [c.ID]
    | _ => []
  | _ => []

/-- The ids of the clients admitted during the calls, in the order of
admission. -/
def admittedIds {G N : Type} (d : Deps G N) (s : Server G N) : List Call → List Int
  | [] => []
  | call :: rest => admittedId d s call ++ admittedIds d (handle d s call) rest

/-- The ids are positive and bounded by the id counter, and the two slots hold
different ids. -/
def IdInv {G N : Type} (s : Server G N) : Prop :=
  0 ≤ s.lastID ∧
    (∀ c, s.blue = some c → 0 < c.ID ∧ c.ID ≤ s.lastID) ∧
    (∀ c, s.red = some c → 0 < c.ID ∧ c.ID ≤ s.lastID) ∧
    (∀ b r, s.blue = some b → s.red = some r → b.ID ≠ r.ID)

/-- The turn holder is the initial value 0, the sentinel -1, or the id of one
of the two participants while both slots are occupied. -/
def TurnInv {G N : Type} (s : Server G N) : Prop :=
  s.current = 0 ∨ s.current = -1 ∨
    ∃ b r, s.blue = some b ∧ s.red = some r ∧ (s.current = b.ID ∨ s.current = r.ID)

/-- A session of seven calls: "A" and "B" are admitted, "A" plays, "B"
disconnects, a placement is rejected, "C" is admitted and "A" plays. -/
def sessionCalls : List Call :=
  [Call.connect ⟨"A", fleetA⟩ 0, Call.connect ⟨"B", fleetB⟩ 1, Call.play ⟨1, 50⟩,
    Call.disconnect 2, Call.connect ⟨"X", overlapping⟩ 2, Call.connect ⟨"C", fleetB⟩ 3,
    Call.play ⟨1, 51⟩]

/-- A session in which a `Connect` returns late: "A" and "B" are admitted,
"A" is disconnected, "C" is admitted into the blue slot, and only then the
`Connect` call of "A" returns. -/
def lateReturnCalls : List Call :=
  [Call.connect ⟨"A", fleetA⟩ 0, Call.connect ⟨"B", fleetB⟩ 1, Call.disconnect 1,
    Call.connect ⟨"C", fleetA⟩ 2, Call.connectReturn ⟨"A", 1, 0⟩ Slot.blue]

/-- The state in which the winning ply of "A" at `matchPoint` dispatches the
game status: the ply is registered (the winner is 1) and the turn has gone to
2. -/
def wonState : Server Game Notifier :=
  { matchPoint with game := (specDeps.RegisterPly matchPoint.game 1 1).2, current := 2,
                    plies := wrapInt (matchPoint.plies + 1) }

/-! ## Theorems -/

/-! ### Lemmas about the validator -/

theorem wrap32_of_range {x : Int} (h1 : -2147483648 ≤ x) (h2 : x < 2147483648) :
    wrap32 x = x := by
  unfold wrap32
  rw [Int.emod_eq_of_lt (by omega) (by omega)]
  omega

theorem lookup_isSome_iff (k : Int) (set : List (Int × Int)) :
    (set.lookup k).isSome = true ↔ k ∈ set.map Prod.fst := by
  induction set with
  | nil => simp
  | cons e set ih =>
    obtain ⟨a, b⟩ := e
    by_cases hk : k = a
    · subst hk; simp [List.lookup]
    · have hb : (k == a) = false := by simpa using hk
      simp [List.lookup, hb, ih, hk]

theorem shipLoop_some (ship : Ship) (is : List Nat) (set : List (Int × Int)) :
    (∃ set1, shipLoop ship is set = some set1 ∧
        ∀ k, k ∈ set1.map Prod.fst ↔ k ∈ is.map (cellKey ship) ∨ k ∈ set.map Prod.fst) ∨
      shipLoop ship is set = none := by
  induction is generalizing set with
  | nil => left; exact ⟨set, rfl, by simp⟩
  | cons i rest ih =>
    unfold shipLoop
    by_cases h : (set.lookup (cellKey ship i)).isSome = true
    · right; simp [h]
    · simp only [h]
      rcases ih ((cellKey ship i, ship.Size) :: set) with ⟨set1, h1, h2⟩ | h1
      · left
        refine ⟨set1, by simpa using h1, ?_⟩
        intro k
        rw [h2 k]
        simp only [List.map_cons, List.mem_cons]
        tauto
      · right; simpa using h1

theorem shipLoop_isSome_iff (ship : Ship) (is : List Nat) (set : List (Int × Int)) :
    (shipLoop ship is set).isSome = true ↔
      (is.map (cellKey ship)).Nodup ∧
        ∀ k ∈ is.map (cellKey ship), k ∉ set.map Prod.fst := by
  induction is generalizing set with
  | nil => simp [shipLoop]
  | cons i rest ih =>
    unfold shipLoop
    by_cases h : (set.lookup (cellKey ship i)).isSome = true
    · have hm := (lookup_isSome_iff _ _).1 h
      simp only [h, if_true]
      constructor
      · intro hf; simp at hf
      · rintro ⟨_, h2⟩
        exact absurd hm (h2 _ (by simp))
    · have hm : cellKey ship i ∉ set.map Prod.fst := fun hx => h ((lookup_isSome_iff _ _).2 hx)
      simp only [h]
      rw [if_neg (by simp), ih]
      simp only [List.map_cons, List.nodup_cons, List.mem_cons]
      constructor
      · rintro ⟨hnd, hdis⟩
        refine ⟨⟨?_, hnd⟩, ?_⟩
        · intro hin
          exact hdis _ hin (Or.inl rfl)
        · intro k hk
          rcases hk with rfl | hk
          · exact hm
          · intro hks
            exact hdis k hk (Or.inr hks)
      · rintro ⟨⟨hni, hnd⟩, hdis⟩
        refine ⟨hnd, ?_⟩
        intro k hk hks
        rcases hks with rfl | hks
        · exact hni hk
        · exact hdis k (Or.inr hk) hks

theorem shipsLoop_iff (ships : List Ship) (set : List (Int × Int)) :
    shipsLoop ships set = true ↔
      (ships.flatMap wrappedCells).Nodup ∧
        ∀ k ∈ ships.flatMap wrappedCells, k ∉ set.map Prod.fst := by
  induction ships generalizing set with
  | nil => simp [shipsLoop]
  | cons ship rest ih =>
    unfold shipsLoop
    have hiff := shipLoop_isSome_iff ship (List.range ship.Size.toNat) set
    rcases shipLoop_some ship (List.range ship.Size.toNat) set with ⟨set1, h1, h2⟩ | h1
    · rw [h1] at hiff
      simp only [h1, ih set1]
      have hok := hiff.1 rfl
      simp only [List.flatMap_cons, List.nodup_append, List.mem_append]
      constructor
      · rintro ⟨hnd, hdis⟩
        refine ⟨⟨hok.1, hnd, ?_⟩, ?_⟩
        · intro k hk1 hk2
          exact hdis k hk2 ((h2 k).2 (Or.inl hk1))
        · intro k hk
          rcases hk with hk | hk
          · exact hok.2 k hk
          · intro hks
            exact hdis k hk ((h2 k).2 (Or.inr hks))
      · rintro ⟨⟨_, hnd, hdj⟩, hdis⟩
        refine ⟨hnd, ?_⟩
        intro k hk hks
        rcases (h2 k).1 hks with hks | hks
        · exact hdj hks hk
        · exact hdis k (Or.inr hk) hks
    · rw [h1] at hiff
      simp only [h1]
      constructor
      · intro hf; simp at hf
      · rintro ⟨hnd, hdis⟩
        exfalso
        have : (none : Option (List (Int × Int))).isSome = true := by
          apply hiff.2
          simp only [List.flatMap_cons, List.nodup_append, List.mem_append] at hnd hdis
          exact ⟨hnd.1, fun k hk => hdis k (Or.inl hk)⟩
        simp at this

/-- The validator accepts exactly the sequences whose inserted keys (with
machine arithmetic) are pairwise distinct. -/
theorem IsDispositionValid_iff_wrapped (ships : List Ship) :
    IsDispositionValid ships = true ↔ (ships.flatMap wrappedCells).Nodup := by
  unfold IsDispositionValid
  rw [shipsLoop_iff]
  simp

theorem wrappedCells_eq_occupied (ship : Ship) (h : NoOverflow ship) :
    wrappedCells ship = occupiedCells ship := by
  unfold wrappedCells occupiedCells
  apply List.map_congr_left
  intro i hi
  obtain ⟨h1, h2, h3⟩ := h i hi
  unfold cellKey
  have h0 : (0 : Int) ≤ (i : Int) * stepOf ship := by
    unfold stepOf
    split <;> omega
  rw [wrap32_of_range (by omega) h1, wrap32_of_range h2 h3]

theorem flatMap_wrapped_eq (ships : List Ship) (h : ∀ ship ∈ ships, NoOverflow ship) :
    ships.flatMap wrappedCells = ships.flatMap occupiedCells := by
  induction ships with
  | nil => rfl
  | cons ship rest ih =>
    simp only [List.flatMap_cons]
    rw [wrappedCells_eq_occupied ship (h ship (by simp)),
      ih (fun s hs => h s (List.mem_cons_of_mem _ hs))]

/-! ### Lemmas about the server -/

theorem dispatch_state {G N : Type} (d : Deps G N) (s : Server G N) :
    ∃ n, (DispatchGameStatusNotifications d s).2 = { s with notifier := n } := by
  obtain ⟨blue, red, lastID, current, game, notifier, plies, chans, closed⟩ := s
  unfold DispatchGameStatusNotifications
  cases blue with
  | none => exact ⟨_, rfl⟩
  | some b =>
    simp only
    split
    · exact ⟨_, rfl⟩
    · cases red with
      | none => exact ⟨_, rfl⟩
      | some r =>
        simp only
        split <;> exact ⟨_, rfl⟩

theorem dispatch_ne_panic {G N : Type} (d : Deps G N) (s : Server G N) (b r : Client)
    (hb : s.blue = some b) (hr : s.red = some r) :
    (DispatchGameStatusNotifications d s).1 ≠ Res.panic := by
  unfold DispatchGameStatusNotifications
  simp only [hb, hr]
  split
  · simp
  · split <;> simp

/-- The state `Play` leaves after an accepted ply by the holder of the turn:
the game after `RegisterPly` (or a new game if a slot holder is the winner),
the turn given to the other slot, the counter incremented. -/
theorem playAs_accepted {G N : Type} (d : Deps G N) (s : Server G N) (b r c : Client)
    (inp : PlayRequest) (hb : s.blue = some b) (hr : s.red = some r)
    (hturn : inp.Id = s.current) (hpos : 0 ≤ inp.Position ∧ inp.Position ≤ 100) :
    ∃ n, playAs d s c inp =
      (Res.ok { Tile := (d.RegisterPly s.game c.ID inp.Position).1,
                Status := PlayStatus.ACCEPTED },
        { s with
          game :=
            if d.Winner (d.RegisterPly s.game c.ID inp.Position).2 = b.ID ∨
                d.Winner (d.RegisterPly s.game c.ID inp.Position).2 = r.ID
            then d.NewGame else (d.RegisterPly s.game c.ID inp.Position).2
          current := if s.current = b.ID then r.ID else b.ID
          plies := wrapInt (s.plies + 1)
          notifier := n }) := by
  obtain ⟨blue, red, lastID, current, game, notifier, plies, chans, closed⟩ := s
  simp only at hb hr hturn
  subst hb hr
  unfold playAs
  have h1 : ¬ (inp.Id ≠ current) := by simp [hturn]
  have h2 : ¬ (inp.Position < 0 ∨ inp.Position > 100) := by omega
  simp only [h1, h2, if_false]
  have hnt : ∀ g : G, nextTurn (⟨some b, some r, lastID, current, g, notifier, plies, chans, closed⟩ : Server G N) =
      some (if current = b.ID then r.ID else b.ID) := by
    intro g
    simp only [nextTurn]
    split <;> rfl
  rw [hnt]
  simp only
  generalize hs3 : (⟨some b, some r, lastID, if current = b.ID then r.ID else b.ID,
    (d.RegisterPly game c.ID inp.Position).2, notifier, wrapInt (plies + 1), chans, closed⟩ : Server G N) = s3
  obtain ⟨n, hn⟩ := dispatch_state d s3
  have hnp := dispatch_ne_panic d s3 b r (by rw [← hs3]) (by rw [← hs3])
  refine ⟨n, ?_⟩
  have hng : newGameIfWon d (DispatchGameStatusNotifications d s3).2 = some
      ({ s3 with notifier := n, game := if d.Winner (d.RegisterPly game c.ID inp.Position).2 = b.ID ∨
                d.Winner (d.RegisterPly game c.ID inp.Position).2 = r.ID
            then d.NewGame else (d.RegisterPly game c.ID inp.Position).2 } : Server G N) := by
    rw [hn, ← hs3]
    simp only [newGameIfWon]
    by_cases hw1 : d.Winner (d.RegisterPly game c.ID inp.Position).2 = b.ID
    · simp [hw1]
    · by_cases hw2 : d.Winner (d.RegisterPly game c.ID inp.Position).2 = r.ID
      · simp [hw1, hw2]
      · simp [hw1, hw2]
  rw [hng]
  cases hd : (DispatchGameStatusNotifications d s3).1 with
  | panic => exact absurd hd hnp
  | ok a => simp only [← hs3]
  | error e => simp only [← hs3]

/-- With both slots occupied `Play` has four outcomes; the state changes only
in the last one. -/
theorem Play_cases {G N : Type} (d : Deps G N) (s : Server G N) (b r : Client)
    (inp : PlayRequest) (hb : s.blue = some b) (hr : s.red = some r) :
    (inp.Id ≠ b.ID ∧ inp.Id ≠ r.ID ∧ Play d s inp = (Res.error (Err.unknownId inp.Id), s)) ∨
    ((inp.Id = b.ID ∨ inp.Id = r.ID) ∧ inp.Id ≠ s.current ∧
      Play d s inp = (Res.ok { Tile := Tile.UNKNOWN, Status := PlayStatus.NOT_YOUR_TURN }, s)) ∨
    ((inp.Id = b.ID ∨ inp.Id = r.ID) ∧ inp.Id = s.current ∧
      (inp.Position < 0 ∨ inp.Position > 100) ∧
      Play d s inp =
        (Res.ok { Tile := Tile.UNKNOWN, Status := PlayStatus.INVALID_POSITION }, s)) ∨
    ((inp.Id = b.ID ∨ inp.Id = r.ID) ∧ inp.Id = s.current ∧
      (0 ≤ inp.Position ∧ inp.Position ≤ 100) ∧
      ∃ n, Play d s inp =
        (Res.ok { Tile := (d.RegisterPly s.game inp.Id inp.Position).1,
                  Status := PlayStatus.ACCEPTED },
          { s with
            game :=
              if d.Winner (d.RegisterPly s.game inp.Id inp.Position).2 = b.ID ∨
                  d.Winner (d.RegisterPly s.game inp.Id inp.Position).2 = r.ID
              then d.NewGame else (d.RegisterPly s.game inp.Id inp.Position).2
            current := if s.current = b.ID then r.ID else b.ID
            plies := wrapInt (s.plies + 1)
            notifier := n })) := by
  have key : ∀ c : Client, c.ID = inp.Id →
      (inp.Id ≠ s.current ∧
        playAs d s c inp =
          (Res.ok { Tile := Tile.UNKNOWN, Status := PlayStatus.NOT_YOUR_TURN }, s)) ∨
      (inp.Id = s.current ∧ (inp.Position < 0 ∨ inp.Position > 100) ∧
        playAs d s c inp =
          (Res.ok { Tile := Tile.UNKNOWN, Status := PlayStatus.INVALID_POSITION }, s)) ∨
      (inp.Id = s.current ∧ (0 ≤ inp.Position ∧ inp.Position ≤ 100) ∧
        ∃ n, playAs d s c inp =
          (Res.ok { Tile := (d.RegisterPly s.game inp.Id inp.Position).1,
                    Status := PlayStatus.ACCEPTED },
            { s with
              game :=
                if d.Winner (d.RegisterPly s.game inp.Id inp.Position).2 = b.ID ∨
                    d.Winner (d.RegisterPly s.game inp.Id inp.Position).2 = r.ID
                then d.NewGame else (d.RegisterPly s.game inp.Id inp.Position).2
              current := if s.current = b.ID then r.ID else b.ID
              plies := wrapInt (s.plies + 1)
              notifier := n })) := by
    intro c hc
    by_cases ht : inp.Id = s.current
    · by_cases hp : inp.Position < 0 ∨ inp.Position > 100
      · right; left
        refine ⟨ht, hp, ?_⟩
        simp [playAs, ht, hp]
      · right; right
        have hp2 : 0 ≤ inp.Position ∧ inp.Position ≤ 100 := by omega
        refine ⟨ht, hp2, ?_⟩
        have := playAs_accepted d s b r c inp hb hr ht hp2
        rw [hc] at this
        exact this
    · left
      refine ⟨ht, ?_⟩
      simp [playAs, ht]
  by_cases h1 : b.ID = inp.Id
  · have hP : Play d s inp = playAs d s b inp := by
      unfold Play; rw [hb]; simp only [h1, if_true]
    rw [hP]
    rcases key b h1 with ⟨ht, h⟩ | ⟨ht, hp, h⟩ | ⟨ht, hp, h⟩
    · right; left; exact ⟨Or.inl h1.symm, ht, h⟩
    · right; right; left; exact ⟨Or.inl h1.symm, ht, hp, h⟩
    · right; right; right; exact ⟨Or.inl h1.symm, ht, hp, h⟩
  · by_cases h2 : r.ID = inp.Id
    · have hP : Play d s inp = playAs d s r inp := by
        unfold Play; rw [hb, hr]; simp only [h1, if_false, h2, if_true]
      rw [hP]
      rcases key r h2 with ⟨ht, h⟩ | ⟨ht, hp, h⟩ | ⟨ht, hp, h⟩
      · right; left; exact ⟨Or.inr h2.symm, ht, h⟩
      · right; right; left; exact ⟨Or.inr h2.symm, ht, hp, h⟩
      · right; right; right; exact ⟨Or.inr h2.symm, ht, hp, h⟩
    · left
      refine ⟨fun h => h1 h.symm, fun h => h2 h.symm, ?_⟩
      unfold Play; rw [hb, hr]; simp only [h1, h2, if_false]

theorem wrapInt_succ {x : Int} (h1 : -9223372036854775808 ≤ x) (h2 : x < maxInt) :
    wrapInt (x + 1) = x + 1 := by
  unfold wrapInt
  unfold maxInt at h2
  rw [Int.emod_eq_of_lt (by omega) (by omega)]
  omega

/-- An accepted `Play` with both slots occupied was made by the holder of the
turn, keeps both slots and gives the turn to the other slot. -/
theorem Play_accepted_inv {G N : Type} (d : Deps G N) (s : Server G N) (b r : Client)
    (inp : PlayRequest) (hb : s.blue = some b) (hr : s.red = some r) :
    (Play d s inp).2.blue = some b ∧ (Play d s inp).2.red = some r ∧
      (accepted (Play d s inp).1 = true →
        inp.Id = s.current ∧ (inp.Id = b.ID ∨ inp.Id = r.ID) ∧
        (Play d s inp).2.current = if s.current = b.ID then r.ID else b.ID) := by
  rcases Play_cases d s b r inp hb hr with ⟨_, _, h⟩ | ⟨_, _, h⟩ | ⟨_, _, _, h⟩ |
    ⟨hid, ht, _, n, h⟩
  · rw [h]; exact ⟨hb, hr, by simp [accepted]⟩
  · rw [h]; exact ⟨hb, hr, by simp [accepted]⟩
  · rw [h]; exact ⟨hb, hr, by simp [accepted]⟩
  · rw [h]; exact ⟨hb, hr, fun _ => ⟨ht, hid, rfl⟩⟩

theorem playAll_alternates {G N : Type} (d : Deps G N) (b r : Client) (hne : b.ID ≠ r.ID)
    (inps : List PlayRequest) :
    ∀ s : Server G N, s.blue = some b → s.red = some r →
      (playAll d s inps).1.all accepted = true →
      List.Chain' (fun x y : PlayRequest => x.Id ≠ y.Id) inps ∧
        (∀ x ∈ inps, x.Id = b.ID ∨ x.Id = r.ID) ∧
        (∀ x ∈ inps.head?, x.Id = s.current) := by
  induction inps with
  | nil => intro s _ _ _; simp
  | cons inp rest ih =>
    intro s hb hr hall
    simp only [playAll, List.all_cons, Bool.and_eq_true] at hall
    obtain ⟨hb1, hr1, hacc⟩ := Play_accepted_inv d s b r inp hb hr
    obtain ⟨ht, hid, hcur⟩ := hacc hall.1
    obtain ⟨hch, hmem, hhead⟩ := ih (Play d s inp).2 hb1 hr1 hall.2
    refine ⟨?_, ?_, ?_⟩
    · rw [List.chain'_cons']
      refine ⟨?_, hch⟩
      intro y hy
      have hy2 := hhead y hy
      rw [hcur] at hy2
      rw [hy2, ht]
      by_cases hc : s.current = b.ID
      · simp only [hc, if_true]; exact hne
      · simp only [hc, if_false]; exact hc
    · intro x hx
      rcases List.mem_cons.1 hx with rfl | hx
      · exact hid
      · exact hmem x hx
    · intro x hx
      simp only [List.head?_cons, Option.mem_def, Option.some.injEq] at hx
      rw [← hx]; exact ht

theorem beginMatch_spec {G N : Type} (d : Deps G N) (s : Server G N) :
    (beginMatch d s).1 = Res.ok () ∧
      ∃ n, (beginMatch d s).2 =
        match s.blue, s.red with
        | some b, some _ => { s with plies := 0, current := b.ID, notifier := n }
        | _, _ => s := by
  obtain ⟨blue, red, lastID, current, game, notifier, plies, chans, closed⟩ := s
  unfold beginMatch
  cases blue with
  | none => exact ⟨rfl, notifier, rfl⟩
  | some b =>
    cases red with
    | none => exact ⟨rfl, notifier, rfl⟩
    | some r =>
      simp only
      generalize hs2 : (⟨some b, some r, lastID, b.ID, game, notifier, 0, chans, closed⟩ :
        Server G N) = s2
      obtain ⟨n, hn⟩ := dispatch_state d s2
      have hnp := dispatch_ne_panic d s2 b r (by rw [← hs2]) (by rw [← hs2])
      cases hd : (DispatchGameStatusNotifications d s2).1 with
      | panic => exact absurd hd hnp
      | ok a => exact ⟨rfl, n, by rw [hn, ← hs2]⟩
      | error e => exact ⟨rfl, n, by rw [hn, ← hs2]⟩

theorem Connect_ok {G N : Type} (d : Deps G N) (s s1 : Server G N) (inp : ConnectRequest)
    (stream : Nat) (c : Client) (slot : Slot)
    (h : Connect d s inp stream = (Res.ok (c, slot), s1)) :
    c = { Name := inp.Name, ID := wrap32 (s.lastID + 1), leave := s.chans } ∧
      (d.SaveDisposition s.game c.ID inp.Ships).1 = true ∧
      s1.lastID = wrap32 (s.lastID + 1) ∧ s1.chans = s.chans + 1 ∧ s1.closed = s.closed ∧
      s1.game = (d.SaveDisposition s.game c.ID inp.Ships).2 ∧
      ((slot = Slot.blue ∧ s.blue = none ∧ s1.blue = some c ∧ s1.red = s.red) ∨
        (slot = Slot.red ∧ s.blue ≠ none ∧ s.red = none ∧ s1.blue = s.blue ∧
          s1.red = some c)) ∧
      ((s1.red ≠ none → s1.plies = 0 ∧ s1.blue.map Client.ID = some s1.current) ∧
        (s1.red = none → s1.plies = s.plies ∧ s1.current = s.current)) := by
  obtain ⟨blue, red, lastID, current, game, notifier, plies, chans, closed⟩ := s
  cases blue with
  | some b0 =>
    cases red with
    | some r0 => simp [Connect] at h
    | none =>
      simp only [Connect, Option.isSome_some, Option.isSome_none, Option.isNone_some,
        and_false, if_false, Bool.false_eq_true] at h
      split at h
      · simp at h
      · split at h
        · simp at h
        · rename_i hsd hnt
          generalize hs6 : (⟨_, _, _, _, _, _, _, _, _⟩ : Server G N) = s6 at h
          obtain ⟨hok, n, hn⟩ := beginMatch_spec d s6
          rw [hok] at h
          simp only [Prod.mk.injEq, Res.ok.injEq] at h
          obtain ⟨⟨hc, hslot⟩, hs1⟩ := h
          subst hc hslot
          rw [hn, ← hs6] at hs1
          subst hs1
          simp at hsd
          simp [hsd]
  | none =>
    simp only [Connect, Option.isSome_none, Option.isNone_none,
      false_and, if_false, Bool.false_eq_true, if_true] at h
    split at h
    · simp at h
    · split at h
      · simp at h
      · rename_i hsd hnt
        generalize hs6 : (⟨_, _, _, _, _, _, _, _, _⟩ : Server G N) = s6 at h
        obtain ⟨hok, n, hn⟩ := beginMatch_spec d s6
        rw [hok] at h
        simp only [Prod.mk.injEq, Res.ok.injEq] at h
        obtain ⟨⟨hc, hslot⟩, hs1⟩ := h
        subst hc hslot
        rw [hn, ← hs6] at hs1
        subst hs1
        simp at hsd
        cases red <;> simp [hsd]

theorem Connect_error {G N : Type} (d : Deps G N) (s s1 : Server G N) (inp : ConnectRequest)
    (stream : Nat) (e : Err) (h : Connect d s inp stream = (Res.error e, s1)) :
    (e = Err.clientsAlreadyConnected ∧ s.blue ≠ none ∧ s.red ≠ none ∧ s1 = s) ∨
    (e = Err.saveDisposition ∧
      (d.SaveDisposition s.game (wrap32 (s.lastID + 1)) inp.Ships).1 = false ∧
      s1 = { s with lastID := wrap32 (s.lastID + 1), chans := s.chans + 1,
                    game := (d.SaveDisposition s.game (wrap32 (s.lastID + 1)) inp.Ships).2 }) ∨
    (e = Err.notify ∧ s1.blue = s.blue ∧ s1.red = s.red ∧ s1.current = s.current ∧
      s1.plies = s.plies ∧ s1.lastID = wrap32 (s.lastID + 1) ∧ s1.chans = s.chans + 1 ∧
      s1.closed = s.closed) := by
  obtain ⟨blue, red, lastID, current, game, notifier, plies, chans, closed⟩ := s
  cases blue with
  | some b0 =>
    cases red with
    | some r0 =>
      simp only [Connect, Option.isSome_some, and_self, if_true, Prod.mk.injEq,
        Res.error.injEq] at h
      left
      exact ⟨h.1.symm, by simp, by simp, h.2.symm⟩
    | none =>
      simp only [Connect, Option.isSome_some, Option.isSome_none, Option.isNone_some,
        and_false, if_false, Bool.false_eq_true] at h
      split at h
      · rename_i hsd
        simp only [Prod.mk.injEq, Res.error.injEq] at h
        right; left
        exact ⟨h.1.symm, hsd, h.2.symm⟩
      · split at h
        · simp only [Prod.mk.injEq, Res.error.injEq, connectDeferred] at h
          right; right
          obtain ⟨he, hs1⟩ := h
          subst hs1
          exact ⟨he.symm, rfl, rfl, rfl, rfl, rfl, rfl, rfl⟩
        · generalize hs6 : (⟨_, _, _, _, _, _, _, _, _⟩ : Server G N) = s6 at h
          obtain ⟨hok, n, hn⟩ := beginMatch_spec d s6
          rw [hok] at h
          simp at h
  | none =>
    simp only [Connect, Option.isSome_none, Option.isNone_none,
      false_and, if_false, Bool.false_eq_true, if_true] at h
    split at h
    · rename_i hsd
      simp only [Prod.mk.injEq, Res.error.injEq] at h
      right; left
      exact ⟨h.1.symm, hsd, h.2.symm⟩
    · split at h
      · simp only [Prod.mk.injEq, Res.error.injEq, connectDeferred] at h
        right; right
        obtain ⟨he, hs1⟩ := h
        subst hs1
        exact ⟨he.symm, rfl, rfl, rfl, rfl, rfl, rfl, rfl⟩
      · generalize hs6 : (⟨_, _, _, _, _, _, _, _, _⟩ : Server G N) = s6 at h
        obtain ⟨hok, n, hn⟩ := beginMatch_spec d s6
        rw [hok] at h
        simp at h

/-- With an empty slot `Play` panics or answers `NOT_YOUR_TURN` or
`INVALID_POSITION`; the last only to the holder of the turn. -/
theorem Play_slot_empty {G N : Type} (d : Deps G N) (s : Server G N) (inp : PlayRequest)
    (h : s.blue = none ∨ s.red = none) :
    (Play d s inp).1 = Res.panic ∨
      Play d s inp =
        (Res.ok { Tile := Tile.UNKNOWN, Status := PlayStatus.NOT_YOUR_TURN }, s) ∨
      (inp.Id = s.current ∧ Play d s inp =
        (Res.ok { Tile := Tile.UNKNOWN, Status := PlayStatus.INVALID_POSITION }, s)) := by
  obtain ⟨blue, red, lastID, current, game, notifier, plies, chans, closed⟩ := s
  cases blue with
  | none => left; rfl
  | some b =>
    cases red with
    | some r => simp at h
    | none =>
      by_cases h1 : b.ID = inp.Id
      · by_cases ht : inp.Id = current
        · by_cases hp : inp.Position < 0 ∨ inp.Position > 100
          · right; right
            refine ⟨ht, ?_⟩
            simp [Play, h1, playAs, ht, hp]
          · left
            subst ht
            simp [Play, h1, playAs, hp, nextTurn]
        · right; left
          simp [Play, h1, playAs, ht]
      · left
        simp [Play, h1]

/-! ### The claims -/

/-- C1: when no 32-bit overflow occurs, `IsDispositionValid` returns true if
and only if all cells occupied by all ships of the sequence (a ship at anchor
`p` of size `n` occupies `p, p+step, ..., p+(n-1)*step`) are pairwise distinct,
and it returns false whenever two ships of the sequence share a cell. -/
theorem IsDispositionValid_iff_cells_distinct (ships : List Ship)
    (h : ∀ ship ∈ ships, NoOverflow ship) :
    (IsDispositionValid ships = true ↔ (ships.flatMap occupiedCells).Nodup) ∧
      (∀ (i j : Nat) (a b : Ship) (c : Int), i < j → ships[i]? = some a →
        ships[j]? = some b → c ∈ occupiedCells a → c ∈ occupiedCells b →
        IsDispositionValid ships = false) := by
  have hiff : IsDispositionValid ships = true ↔ (ships.flatMap occupiedCells).Nodup := by
    rw [IsDispositionValid_iff_wrapped, flatMap_wrapped_eq ships h]
  refine ⟨hiff, ?_⟩
  intro i j a b c hij ha hb hca hcb
  cases hv : IsDispositionValid ships with
  | false => rfl
  | true =>
    exfalso
    have hnd := hiff.1 hv
    have hpw := (List.nodup_flatMap.1 hnd).2
    obtain ⟨hi, rfl⟩ := List.getElem?_eq_some.1 ha
    obtain ⟨hj, rfl⟩ := List.getElem?_eq_some.1 hb
    have := List.pairwise_iff_getElem.1 hpw i j hi hj hij
    exact this hca hcb

/-- Witness of C1 at `fleetA`. -/
theorem IsDispositionValid_iff_cells_distinct_witness :
    (∀ ship ∈ fleetA, NoOverflow ship) ∧
      ((IsDispositionValid fleetA = true ↔ (fleetA.flatMap occupiedCells).Nodup) ∧
        (∀ (i j : Nat) (a b : Ship) (c : Int), i < j → fleetA[i]? = some a →
          fleetA[j]? = some b → c ∈ occupiedCells a → c ∈ occupiedCells b →
          IsDispositionValid fleetA = false)) :=
  ⟨by decide, IsDispositionValid_iff_cells_distinct fleetA (by decide)⟩


/-- C2 (evaluation at the failing input): with blue "A" (id 1) and red "B"
(id 2) connected and the turn held by 1, `Play` with position 100 by the
holder of the turn is not answered `INVALID_POSITION`: the guard is
`Position > 100`, so the ply is registered, the reply is `ACCEPTED`, the turn
goes to 2 and the ply counter goes from 0 to 1. -/
theorem Play_position_100_accepted :
    bothConnected.blue = some ⟨"A", 1, 0⟩ ∧ bothConnected.red = some ⟨"B", 2, 1⟩ ∧
      bothConnected.current = 1 ∧ bothConnected.plies = 0 ∧
      (Play specDeps bothConnected ⟨1, 100⟩).1 =
        Res.ok { Tile := Tile.MISS, Status := PlayStatus.ACCEPTED } ∧
      (Play specDeps bothConnected ⟨1, 100⟩).2.current = 2 ∧
      (Play specDeps bothConnected ⟨1, 100⟩).2.plies = 1 ∧
      (Play specDeps bothConnected ⟨1, 100⟩).2.game ≠ bothConnected.game := by
  decide

/-- C3: with both slots occupied, a `Play` whose id is the id of one of the
two participants but not the holder of the turn returns status
`NOT_YOUR_TURN` with tile `UNKNOWN` and no error, whatever the position, and
leaves the whole server state (turn holder, ply counter, game, both slots)
unchanged. -/
theorem Play_not_your_turn {G N : Type} (d : Deps G N) (s : Server G N) (b r : Client)
    (inp : PlayRequest) (hb : s.blue = some b) (hr : s.red = some r)
    (hid : inp.Id = b.ID ∨ inp.Id = r.ID) (hturn : inp.Id ≠ s.current) :
    Play d s inp =
      (Res.ok { Tile := Tile.UNKNOWN, Status := PlayStatus.NOT_YOUR_TURN }, s) := by
  rcases Play_cases d s b r inp hb hr with ⟨h1, h2, _⟩ | ⟨_, _, h⟩ | ⟨_, ht, _⟩ | ⟨_, ht, _⟩
  · rcases hid with h | h
    · exact absurd h h1
    · exact absurd h h2
  · exact h
  · exact absurd ht hturn
  · exact absurd ht hturn

/-- Witness of C3: "B" (id 2) plays while the turn is held by 1. -/
theorem Play_not_your_turn_witness :
    bothConnected.blue = some ⟨"A", 1, 0⟩ ∧ bothConnected.red = some ⟨"B", 2, 1⟩ ∧
      (2 : Int) ≠ bothConnected.current ∧
      Play specDeps bothConnected ⟨2, 50⟩ =
        (Res.ok { Tile := Tile.UNKNOWN, Status := PlayStatus.NOT_YOUR_TURN }, bothConnected) :=
  ⟨by decide, by decide, by decide,
    Play_not_your_turn specDeps bothConnected ⟨"A", 1, 0⟩ ⟨"B", 2, 1⟩ ⟨2, 50⟩
      (by decide) (by decide) (Or.inr rfl) (by decide)⟩

/-- C4: with both slots occupied by participants with distinct ids (and a ply
counter that is a Go `int` below its largest value), a `Play` by the holder of
the turn with a position in 0..99 returns `ACCEPTED` with exactly the tile
that `RegisterPly(id, position)` returned; afterwards the turn is held by the
other participant and the ply counter is one more than before. Hence in any
sequence of `Play` calls that are all accepted, consecutive calls are made by
different participants, each of them one of the two. -/
theorem Play_accepted_alternates {G N : Type} (d : Deps G N) (s : Server G N)
    (b r : Client) (hb : s.blue = some b) (hr : s.red = some r) (hne : b.ID ≠ r.ID)
    (hlo : -9223372036854775808 ≤ s.plies) (hhi : s.plies < maxInt) :
    (∀ inp : PlayRequest, inp.Id = s.current → (inp.Id = b.ID ∨ inp.Id = r.ID) →
      0 ≤ inp.Position → inp.Position ≤ 99 →
      (Play d s inp).1 =
          Res.ok { Tile := (d.RegisterPly s.game inp.Id inp.Position).1,
                   Status := PlayStatus.ACCEPTED } ∧
        (Play d s inp).2.current = (if inp.Id = b.ID then r.ID else b.ID) ∧
        (Play d s inp).2.plies = s.plies + 1) ∧
    (∀ inps : List PlayRequest, (playAll d s inps).1.all accepted = true →
      List.Chain' (fun x y : PlayRequest => x.Id ≠ y.Id) inps ∧
        ∀ x ∈ inps, x.Id = b.ID ∨ x.Id = r.ID) := by
  constructor
  · intro inp ht hid hp0 hp99
    rcases Play_cases d s b r inp hb hr with ⟨h1, h2, _⟩ | ⟨_, hn, _⟩ | ⟨_, _, hp, _⟩ |
      ⟨_, _, _, n, h⟩
    · rcases hid with h | h
      · exact absurd h h1
      · exact absurd h h2
    · exact absurd ht hn
    · omega
    · rw [h]
      refine ⟨rfl, ?_, wrapInt_succ hlo hhi⟩
      simp only [ht]
  · intro inps hall
    obtain ⟨h1, h2, _⟩ := playAll_alternates d b r hne inps s hb hr hall
    exact ⟨h1, h2⟩

/-- Witness of C4: "A" (id 1) holds the turn and fires at cell 50, a cell of
the first ship of `fleetB`; then "B" and "A" play in turn. -/
theorem Play_accepted_alternates_witness :
    (bothConnected.blue = some ⟨"A", 1, 0⟩ ∧ bothConnected.red = some ⟨"B", 2, 1⟩ ∧
      (1 : Int) ≠ 2 ∧ -9223372036854775808 ≤ bothConnected.plies ∧
      bothConnected.plies < maxInt ∧ (1 : Int) = bothConnected.current) ∧
    ((Play specDeps bothConnected ⟨1, 50⟩).1 =
        Res.ok { Tile := (specDeps.RegisterPly bothConnected.game 1 50).1,
                 Status := PlayStatus.ACCEPTED } ∧
      (Play specDeps bothConnected ⟨1, 50⟩).2.current =
        (if (1 : Int) = 1 then 2 else 1) ∧
      (Play specDeps bothConnected ⟨1, 50⟩).2.plies = bothConnected.plies + 1) ∧
    ((playAll specDeps bothConnected [⟨1, 50⟩, ⟨2, 0⟩, ⟨1, 60⟩]).1.all accepted = true ∧
      List.Chain' (fun x y : PlayRequest => x.Id ≠ y.Id)
        [(⟨1, 50⟩ : PlayRequest), ⟨2, 0⟩, ⟨1, 60⟩]) :=
  ⟨by decide,
    (Play_accepted_alternates specDeps bothConnected ⟨"A", 1, 0⟩ ⟨"B", 2, 1⟩
      (by decide) (by decide) (by decide) (by decide) (by decide)).1 ⟨1, 50⟩
      (by decide) (Or.inl rfl) (by decide) (by decide),
    by decide,
    ((Play_accepted_alternates specDeps bothConnected ⟨"A", 1, 0⟩ ⟨"B", 2, 1⟩
      (by decide) (by decide) (by decide) (by decide) (by decide)).2
      [⟨1, 50⟩, ⟨2, 0⟩, ⟨1, 60⟩] (by decide)).1⟩

/-- C5 (counterexample): blue "A" (id 1) makes the ply that sinks the last
ship cell of red "B": the winner is 1, `Play` replaces the game with a new
one, both stay connected, and the turn at the start of the new match is held
by 2, not by the id of the blue slot. -/
theorem Play_new_match_turn_not_blue :
    matchPoint.blue = some ⟨"A", 1, 0⟩ ∧ matchPoint.red = some ⟨"B", 2, 1⟩ ∧
      matchPoint.current = 1 ∧
      specDeps.Winner (specDeps.RegisterPly matchPoint.game 1 1).2 = 1 ∧
      (Play specDeps matchPoint ⟨1, 1⟩).1 =
        Res.ok { Tile := Tile.SUNK, Status := PlayStatus.ACCEPTED } ∧
      (Play specDeps matchPoint ⟨1, 1⟩).2.game = specDeps.NewGame ∧
      (Play specDeps matchPoint ⟨1, 1⟩).2.blue = some ⟨"A", 1, 0⟩ ∧
      (Play specDeps matchPoint ⟨1, 1⟩).2.current = 2 ∧
      ¬ ((Play specDeps matchPoint ⟨1, 1⟩).2.blue.map Client.ID =
        some (Play specDeps matchPoint ⟨1, 1⟩).2.current) := by
  decide

/-- C5 (amended): when an admission completes the pair, the turn is held by
the id of the participant in the blue slot. When an accepted `Play` (both
slots occupied, distinct ids) replaces the game with a new one because the
winner is one of the two participants, the turn at the start of the new match
is held by the participant who did not make that ply: by blue exactly when
red made it. -/
theorem new_match_turn_holder {G N : Type} (d : Deps G N) :
    (∀ (s s1 : Server G N) (inp : ConnectRequest) (stream : Nat) (c : Client) (slot : Slot),
      Connect d s inp stream = (Res.ok (c, slot), s1) → s1.blue ≠ none → s1.red ≠ none →
      s1.blue.map Client.ID = some s1.current) ∧
    (∀ (s : Server G N) (b r : Client) (inp : PlayRequest), s.blue = some b →
      s.red = some r → b.ID ≠ r.ID → accepted (Play d s inp).1 = true →
      (d.Winner (d.RegisterPly s.game inp.Id inp.Position).2 = b.ID ∨
        d.Winner (d.RegisterPly s.game inp.Id inp.Position).2 = r.ID) →
      (Play d s inp).2.game = d.NewGame ∧ (Play d s inp).2.blue = some b ∧
        (Play d s inp).2.red = some r ∧
        (Play d s inp).2.current = (if inp.Id = b.ID then r.ID else b.ID) ∧
        ((Play d s inp).2.current = b.ID ↔ inp.Id = r.ID)) := by
  constructor
  · intro s s1 inp stream c slot h _ hr
    exact ((Connect_ok d s s1 inp stream c slot h).2.2.2.2.2.2.2.1 hr).2
  · intro s b r inp hb hr hne hacc hw
    rcases Play_cases d s b r inp hb hr with ⟨_, _, h⟩ | ⟨_, _, h⟩ | ⟨_, _, _, h⟩ |
      ⟨hid, ht, _, n, h⟩
    · rw [h] at hacc; simp [accepted] at hacc
    · rw [h] at hacc; simp [accepted] at hacc
    · rw [h] at hacc; simp [accepted] at hacc
    · rw [h]
      simp only [hw, if_true]
      refine ⟨trivial, hb, hr, ?_, ?_⟩
      · rw [ht]
      · rw [← ht]
        by_cases hc : inp.Id = b.ID
        · simp only [hc, if_true]
          constructor
          · intro h1; exact absurd h1.symm hne
          · intro h1; exact absurd h1 hne
        · simp only [hc, if_false, true_iff]
          rcases hid with h1 | h1
          · exact absurd h1 hc
          · exact h1

/-- Witness of C5 (amended): the second admission into `oneConnected`, and the
winning ply of "A" at `matchPoint`. -/
theorem new_match_turn_holder_witness :
    (Connect specDeps oneConnected ⟨"B", fleetB⟩ 1 =
        (Res.ok (⟨"B", 2, 1⟩, Slot.red), bothConnected) ∧
      bothConnected.blue ≠ none ∧ bothConnected.red ≠ none ∧
      bothConnected.blue.map Client.ID = some bothConnected.current) ∧
    (matchPoint.blue = some ⟨"A", 1, 0⟩ ∧ matchPoint.red = some ⟨"B", 2, 1⟩ ∧
      accepted (Play specDeps matchPoint ⟨1, 1⟩).1 = true ∧
      specDeps.Winner (specDeps.RegisterPly matchPoint.game 1 1).2 = 1 ∧
      (Play specDeps matchPoint ⟨1, 1⟩).2.game = specDeps.NewGame ∧
      (Play specDeps matchPoint ⟨1, 1⟩).2.current = (if (1 : Int) = 1 then 2 else 1)) :=
  ⟨⟨by decide, by decide, by decide,
      (new_match_turn_holder specDeps).1 oneConnected bothConnected ⟨"B", fleetB⟩ 1
        ⟨"B", 2, 1⟩ Slot.red (by decide) (by decide) (by decide)⟩,
    by decide, by decide, by decide, by decide,
    ((new_match_turn_holder specDeps).2 matchPoint
      ⟨"A", 1, 0⟩ ⟨"B", 2, 1⟩ ⟨1, 1⟩ (by decide) (by decide) (by decide) (by decide)
      (Or.inl (by decide))).1,
    ((new_match_turn_holder specDeps).2 matchPoint
      ⟨"A", 1, 0⟩ ⟨"B", 2, 1⟩ ⟨1, 1⟩ (by decide) (by decide) (by decide) (by decide)
      (Or.inl (by decide))).2.2.2.1⟩

/-- C6: from a new server, after two successful `Connect` admissions the turn
is held by the id given to the first admitted participant (which is 1, in the
blue slot) and the ply counter is 0; and every admission that completes the
pair sets the ply counter to 0 and the turn to the id held by the blue
slot. -/
theorem Connect_pair_turn_and_plies {G N : Type} (d : Deps G N) :
    (∀ (inp1 inp2 : ConnectRequest) (st1 st2 : Nat) (c1 c2 : Client) (sl1 sl2 : Slot)
      (s1 s2 : Server G N),
      Connect d (NewServer d) inp1 st1 = (Res.ok (c1, sl1), s1) →
      Connect d s1 inp2 st2 = (Res.ok (c2, sl2), s2) →
      s2.current = c1.ID ∧ s2.plies = 0 ∧ c1.ID = 1 ∧ s2.blue = some c1 ∧
        s2.red = some c2) ∧
    (∀ (s s1 : Server G N) (inp : ConnectRequest) (stream : Nat) (c b : Client)
      (slot : Slot),
      Connect d s inp stream = (Res.ok (c, slot), s1) → s1.blue = some b → s1.red ≠ none →
      s1.plies = 0 ∧ s1.current = b.ID) := by
  have gen : ∀ (s s1 : Server G N) (inp : ConnectRequest) (stream : Nat) (c b : Client)
      (slot : Slot),
      Connect d s inp stream = (Res.ok (c, slot), s1) → s1.blue = some b → s1.red ≠ none →
      s1.plies = 0 ∧ s1.current = b.ID := by
    intro s s1 inp stream c b slot h hb hr
    obtain ⟨hp, hc⟩ := (Connect_ok d s s1 inp stream c slot h).2.2.2.2.2.2.2.1 hr
    rw [hb] at hc
    simp only [Option.map_some', Option.some.injEq] at hc
    exact ⟨hp, hc.symm⟩
  refine ⟨?_, gen⟩
  intro inp1 inp2 st1 st2 c1 c2 sl1 sl2 s1 s2 h1 h2
  obtain ⟨hc1, _, _, _, _, _, hslot1, _⟩ := Connect_ok d _ s1 inp1 st1 c1 sl1 h1
  obtain ⟨_, _, _, _, _, _, hslot2, _⟩ := Connect_ok d s1 s2 inp2 st2 c2 sl2 h2
  have hid : c1.ID = 1 := by rw [hc1]; rfl
  have hb1 : s1.blue = some c1 ∧ s1.red = none := by
    rcases hslot1 with ⟨_, _, hb, hr⟩ | ⟨_, hne, _⟩
    · exact ⟨hb, hr⟩
    · exact absurd rfl hne
  have hs2 : s2.blue = some c1 ∧ s2.red = some c2 := by
    rcases hslot2 with ⟨_, hnone, _⟩ | ⟨_, _, _, hb, hr⟩
    · rw [hb1.1] at hnone; simp at hnone
    · exact ⟨hb.trans hb1.1, hr⟩
  obtain ⟨hp, hc⟩ := gen s1 s2 inp2 st2 c2 c1 sl2 h2 hs2.1 (by rw [hs2.2]; simp)
  exact ⟨hc, hp, hid, hs2.1, hs2.2⟩

/-- Witness of C6: the admissions of "A" and of "B" into a new server. -/
theorem Connect_pair_turn_and_plies_witness :
    (Connect specDeps (NewServer specDeps) ⟨"A", fleetA⟩ 0 =
        (Res.ok (⟨"A", 1, 0⟩, Slot.blue), oneConnected) ∧
      Connect specDeps oneConnected ⟨"B", fleetB⟩ 1 =
        (Res.ok (⟨"B", 2, 1⟩, Slot.red), bothConnected)) ∧
    (bothConnected.current = (⟨"A", 1, 0⟩ : Client).ID ∧ bothConnected.plies = 0 ∧
      (⟨"A", 1, 0⟩ : Client).ID = 1 ∧ bothConnected.blue = some ⟨"A", 1, 0⟩ ∧
      bothConnected.red = some ⟨"B", 2, 1⟩) :=
  ⟨⟨by decide, by decide⟩,
    (Connect_pair_turn_and_plies specDeps).1 ⟨"A", fleetA⟩ ⟨"B", fleetB⟩ 0 1 ⟨"A", 1, 0⟩
      ⟨"B", 2, 1⟩ Slot.blue Slot.red oneConnected bothConnected (by decide) (by decide)⟩

/-- C7 (evaluation at the failing inputs): `Play` on a new server (both slots
nil) panics on `s.blue.ID`; with only the blue slot occupied (id 1), `Play` with
the unknown id 7 panics on `s.red.ID`. No `UnknownParticipant` error is
returned. -/
theorem Play_empty_slot_panics :
    (Play specDeps (NewServer specDeps) ⟨1, 0⟩).1 = Res.panic ∧
      oneConnected.blue = some ⟨"A", 1, 0⟩ ∧ oneConnected.red = none ∧
      (Play specDeps oneConnected ⟨7, 0⟩).1 = Res.panic := by
  decide

/-- C8 (counterexample): on a new server, a `Connect` whose placement
`save_disposition` rejects returns that error, and the id counter `lastID` has
gone from 0 to 1. -/
theorem Connect_rejected_changes_lastID :
    IsDispositionValid overlapping = false ∧
      (Connect specDeps (NewServer specDeps) ⟨"A", overlapping⟩ 0).1 =
        Res.error Err.saveDisposition ∧
      (NewServer specDeps).lastID = 0 ∧
      (Connect specDeps (NewServer specDeps) ⟨"A", overlapping⟩ 0).2.lastID = 1 ∧
      (Connect specDeps (NewServer specDeps) ⟨"A", overlapping⟩ 0).2.lastID ≠
        (NewServer specDeps).lastID := by
  decide

/-- C8 (amended): a `Connect` rejected because both slots are occupied or
because `save_disposition` rejects the placement leaves both slots, the turn
holder and the ply counter as they were. In the first case the id counter
`lastID` (and the whole state) is unchanged; in the second the id counter has
advanced by one (the id of the rejected client is consumed). -/
theorem Connect_rejected_frame {G N : Type} (d : Deps G N) (s s1 : Server G N)
    (inp : ConnectRequest) (stream : Nat) (e : Err)
    (h : Connect d s inp stream = (Res.error e, s1))
    (he : e = Err.clientsAlreadyConnected ∨ e = Err.saveDisposition) :
    s1.blue = s.blue ∧ s1.red = s.red ∧ s1.current = s.current ∧ s1.plies = s.plies ∧
      (e = Err.clientsAlreadyConnected → s1 = s) ∧
      (e = Err.saveDisposition → s1.lastID = wrap32 (s.lastID + 1)) := by
  rcases Connect_error d s s1 inp stream e h with ⟨h1, _, _, h2⟩ | ⟨h1, _, h2⟩ | ⟨h1, _⟩
  · subst h2
    refine ⟨rfl, rfl, rfl, rfl, fun _ => rfl, ?_⟩
    intro h3; rw [h1] at h3; cases h3
  · subst h2
    refine ⟨rfl, rfl, rfl, rfl, ?_, fun _ => rfl⟩
    intro h3; rw [h1] at h3; cases h3
  · rcases he with h3 | h3 <;> (rw [h1] at h3; cases h3)

/-- Witness of C8 (amended): the rejected placement on a new server. -/
theorem Connect_rejected_frame_witness :
    Connect specDeps (NewServer specDeps) ⟨"A", overlapping⟩ 0 =
        (Res.error Err.saveDisposition,
          (Connect specDeps (NewServer specDeps) ⟨"A", overlapping⟩ 0).2) ∧
      (Connect specDeps (NewServer specDeps) ⟨"A", overlapping⟩ 0).2.blue = none ∧
      (Connect specDeps (NewServer specDeps) ⟨"A", overlapping⟩ 0).2.red = none ∧
      (Connect specDeps (NewServer specDeps) ⟨"A", overlapping⟩ 0).2.current = 0 ∧
      (Connect specDeps (NewServer specDeps) ⟨"A", overlapping⟩ 0).2.plies = 0 :=
  ⟨by decide,
    (Connect_rejected_frame specDeps (NewServer specDeps) _ ⟨"A", overlapping⟩ 0
      Err.saveDisposition (by decide) (Or.inr rfl)).1,
    (Connect_rejected_frame specDeps (NewServer specDeps) _ ⟨"A", overlapping⟩ 0
      Err.saveDisposition (by decide) (Or.inr rfl)).2.1,
    (Connect_rejected_frame specDeps (NewServer specDeps) _ ⟨"A", overlapping⟩ 0
      Err.saveDisposition (by decide) (Or.inr rfl)).2.2.1,
    (Connect_rejected_frame specDeps (NewServer specDeps) _ ⟨"A", overlapping⟩ 0
      Err.saveDisposition (by decide) (Or.inr rfl)).2.2.2.1⟩

/-- C9: for an id that is not the id of a participant in an occupied slot
(one or both slots may be empty), `Disconnect` fails with the unknown-id
error and returns the state unchanged: slots, turn holder, ply counter, id
counter, and the set of closed `leave` channels (no blocked `Connect` is
released). -/
theorem Disconnect_unknown_id {G N : Type} (s : Server G N) (id : Int)
    (hb : ∀ c, s.blue = some c → c.ID ≠ id) (hr : ∀ c, s.red = some c → c.ID ≠ id) :
    Disconnect s id = (Res.error (Err.unknownId id), s) := by
  have h1 : holdsID s.blue id = false := by
    cases hbl : s.blue with
    | none => rfl
    | some c => simpa [holdsID] using hb c hbl
  have h2 : holdsID s.red id = false := by
    cases hrd : s.red with
    | none => rfl
    | some c => simpa [holdsID] using hr c hrd
  simp [Disconnect, h1, h2]

/-- Witness of C9: id 7 with only "A" (id 1) connected. -/
theorem Disconnect_unknown_id_witness :
    (∀ c, oneConnected.blue = some c → c.ID ≠ 7) ∧
      (∀ c, oneConnected.red = some c → c.ID ≠ 7) ∧
      Disconnect oneConnected 7 = (Res.error (Err.unknownId 7), oneConnected) :=
  ⟨by decide, by decide, Disconnect_unknown_id oneConnected 7 (by decide) (by decide)⟩

/-- C10: for the id of a participant `c` in an occupied slot (blue if blue
holds the id, red otherwise) whose `leave` channel is still open, and with no
participant id equal to the sentinel -1 (ids are positive), `Disconnect`
succeeds, empties that slot only, leaves the other slot, the id counter, the
ply counter, the game and the notifier unchanged, sets the turn holder to -1
and closes `c.leave`. Afterwards the turn holder is not the id of `c`, and a
`Play` is never `ACCEPTED`: by a remaining participant it is answered
`NOT_YOUR_TURN` (state unchanged) or it panics. -/
theorem Disconnect_participant {G N : Type} (s : Server G N) (id : Int) (c : Client)
    (hc : (s.blue = some c ∧ c.ID = id) ∨
      (holdsID s.blue id = false ∧ s.red = some c ∧ c.ID = id))
    (hopen : c.leave ∉ s.closed)
    (hbid : ∀ p, s.blue = some p → p.ID ≠ -1) (hrid : ∀ p, s.red = some p → p.ID ≠ -1) :
    (Disconnect s id).1 = Res.ok () ∧
      ((s.blue = some c ∧ (Disconnect s id).2.blue = none ∧
          (Disconnect s id).2.red = s.red) ∨
        (s.red = some c ∧ (Disconnect s id).2.red = none ∧
          (Disconnect s id).2.blue = s.blue)) ∧
      (Disconnect s id).2.lastID = s.lastID ∧ (Disconnect s id).2.plies = s.plies ∧
      (Disconnect s id).2.game = s.game ∧ (Disconnect s id).2.notifier = s.notifier ∧
      (Disconnect s id).2.current = -1 ∧
      (Disconnect s id).2.closed = c.leave :: s.closed ∧
      (Disconnect s id).2.current ≠ c.ID ∧
      (∀ (d : Deps G N) (inp : PlayRequest),
        accepted (Play d (Disconnect s id).2 inp).1 = false ∧
        (∀ p, ((Disconnect s id).2.blue = some p ∨ (Disconnect s id).2.red = some p) →
          inp.Id = p.ID →
          Play d (Disconnect s id).2 inp =
              (Res.ok { Tile := Tile.UNKNOWN, Status := PlayStatus.NOT_YOUR_TURN },
                (Disconnect s id).2) ∨
            (Play d (Disconnect s id).2 inp).1 = Res.panic)) := by
  have hcid : c.ID ≠ -1 := by
    rcases hc with ⟨h, _⟩ | ⟨_, h, _⟩
    · exact hbid c h
    · exact hrid c h
  -- the state after the call, in both cases
  have hst : ∃ s1 : Server G N, Disconnect s id = (Res.ok (), s1) ∧
      ((s.blue = some c ∧ s1.blue = none ∧ s1.red = s.red) ∨
        (s.red = some c ∧ s1.red = none ∧ s1.blue = s.blue)) ∧
      s1.lastID = s.lastID ∧ s1.plies = s.plies ∧ s1.game = s.game ∧
      s1.notifier = s.notifier ∧ s1.current = -1 ∧ s1.closed = c.leave :: s.closed := by
    rcases hc with ⟨hb, hid⟩ | ⟨hnb, hr, hid⟩
    · have h1 : holdsID s.blue id = true := by simp [holdsID, hb, hid]
      refine ⟨{ s with blue := none, current := -1, closed := c.leave :: s.closed }, ?_,
        Or.inl ⟨hb, rfl, rfl⟩, rfl, rfl, rfl, rfl, rfl, rfl⟩
      unfold Disconnect
      rw [if_pos h1]
      simp [disconnectClient, hb, hopen]
    · have h2 : holdsID s.red id = true := by simp [holdsID, hr, hid]
      refine ⟨{ s with red := none, current := -1, closed := c.leave :: s.closed }, ?_,
        Or.inr ⟨hr, rfl, rfl⟩, rfl, rfl, rfl, rfl, rfl, rfl⟩
      unfold Disconnect
      rw [if_neg (by simp [hnb]), if_pos h2]
      simp [disconnectClient, hr, hopen]
  obtain ⟨s1, hs1, hslots, hl, hp, hg, hn, hcur, hcl⟩ := hst
  rw [hs1]
  refine ⟨rfl, hslots, hl, hp, hg, hn, hcur, hcl, ?_, ?_⟩
  · show s1.current ≠ c.ID
    rw [hcur]; exact fun h => hcid h.symm
  · intro d inp
    have hempty : s1.blue = none ∨ s1.red = none := by
      rcases hslots with ⟨_, h, _⟩ | ⟨_, h, _⟩
      · exact Or.inl h
      · exact Or.inr h
    have hrem : ∀ p, (s1.blue = some p ∨ s1.red = some p) → p.ID ≠ -1 := by
      intro p hp1
      rcases hslots with ⟨_, h1, h2⟩ | ⟨_, h1, h2⟩
      · rcases hp1 with h | h
        · rw [h1] at h; cases h
        · exact hrid p (h2 ▸ h)
      · rcases hp1 with h | h
        · exact hbid p (h2 ▸ h)
        · rw [h1] at h; cases h
    rcases Play_slot_empty d s1 inp hempty with h | h | ⟨ht, h⟩
    · exact ⟨by simp [h, accepted], fun _ _ _ => Or.inr h⟩
    · exact ⟨by simp [h, accepted], fun _ _ _ => Or.inl h⟩
    · refine ⟨by simp [h, accepted], ?_⟩
      intro p hp1 hpid
      exfalso
      apply hrem p hp1
      rw [← hpid, ht, hcur]

/-- Witness of C10: "B" (id 2) disconnects from `bothConnected`; then "A"
(id 1) plays. -/
theorem Disconnect_participant_witness :
    ((holdsID bothConnected.blue 2 = false ∧ bothConnected.red = some ⟨"B", 2, 1⟩ ∧
        (⟨"B", 2, 1⟩ : Client).ID = 2) ∧
      (⟨"B", 2, 1⟩ : Client).leave ∉ bothConnected.closed ∧
      (∀ p, bothConnected.blue = some p → p.ID ≠ -1) ∧
      (∀ p, bothConnected.red = some p → p.ID ≠ -1)) ∧
    ((Disconnect bothConnected 2).1 = Res.ok () ∧
      (Disconnect bothConnected 2).2.red = none ∧
      (Disconnect bothConnected 2).2.blue = some ⟨"A", 1, 0⟩ ∧
      (Disconnect bothConnected 2).2.current = -1 ∧
      accepted (Play specDeps (Disconnect bothConnected 2).2 ⟨1, 50⟩).1 = false) :=
  ⟨⟨by decide, by decide, by decide, by decide⟩,
    (Disconnect_participant bothConnected 2 ⟨"B", 2, 1⟩ (Or.inr (by decide)) (by decide)
      (by decide) (by decide)).1,
    by decide, by decide,
    (Disconnect_participant bothConnected 2 ⟨"B", 2, 1⟩ (Or.inr (by decide)) (by decide)
      (by decide) (by decide)).2.2.2.2.2.2.1,
    ((Disconnect_participant bothConnected 2 ⟨"B", 2, 1⟩ (Or.inr (by decide)) (by decide)
      (by decide) (by decide)).2.2.2.2.2.2.2.2.2 specDeps ⟨1, 50⟩).1⟩

/-! ### Lemmas for the later claims -/

theorem flatMap_sublist {α β : Type} (f : α → List β) {l1 l2 : List α} (h : l1.Sublist l2) :
    (l1.flatMap f).Sublist (l2.flatMap f) := by
  induction h with
  | slnil => simp
  | cons a _ ih =>
    simp only [List.flatMap_cons]
    exact ih.trans (List.sublist_append_right _ _)
  | cons₂ a _ ih =>
    simp only [List.flatMap_cons]
    exact List.Sublist.append (List.Sublist.refl _) ih

theorem occupiedCells_nodup (ship : Ship) : (occupiedCells ship).Nodup := by
  unfold occupiedCells
  apply List.Nodup.map_on _ (List.nodup_range _)
  intro x _ y _ hxy
  have hs : 0 < stepOf ship := by unfold stepOf; split <;> omega
  have h1 : (x : Int) * stepOf ship = (y : Int) * stepOf ship := by omega
  have h2 := Int.eq_of_mul_eq_mul_right (Int.ne_of_gt hs) h1
  exact_mod_cast h2

/-- C13: `IsDispositionValid` checks neither the grid bounds nor the shape of
the ship set. It accepts the empty sequence, a single ship of size 2, and a
single horizontal ship of size 5 anchored at cell 98, whose cells are
98, 99, 100, 101, 102. So a true result implies neither that every occupied
cell lies in 0..99 nor that the sizes of the ships are 5, 4, 3, 3, 2. -/
theorem IsDispositionValid_no_bounds_no_shape :
    IsDispositionValid [] = true ∧
      IsDispositionValid [⟨0, 2, false⟩] = true ∧
      IsDispositionValid [⟨98, 5, false⟩] = true ∧
      occupiedCells ⟨98, 5, false⟩ = [98, 99, 100, 101, 102] ∧
      ¬ (∀ ships : List Ship, IsDispositionValid ships = true →
          ∀ c ∈ ships.flatMap occupiedCells, 0 ≤ c ∧ c ≤ 99) ∧
      ¬ (∀ ships : List Ship, IsDispositionValid ships = true →
          (ships.map Ship.Size).Perm [5, 4, 3, 3, 2]) := by
  refine ⟨by decide, by decide, by decide, by decide, ?_, ?_⟩
  · intro h
    have := h [⟨98, 5, false⟩] (by decide) 102 (by decide)
    omega
  · intro h
    have := (h [] (by decide)).length_eq
    simp at this

/-- C16: the result of `IsDispositionValid` is the same for a sequence of
ships and for every permutation of it; if a sequence is accepted, every
sequence obtained from it by removing ships is accepted; and a single ship
with no 32-bit overflow is accepted. -/
theorem IsDispositionValid_perm_sublist :
    (∀ ships1 ships2 : List Ship, ships1.Perm ships2 →
      IsDispositionValid ships1 = IsDispositionValid ships2) ∧
    (∀ ships1 ships2 : List Ship, ships1.Sublist ships2 →
      IsDispositionValid ships2 = true → IsDispositionValid ships1 = true) ∧
    (∀ ship : Ship, NoOverflow ship → IsDispositionValid [ship] = true) := by
  refine ⟨?_, ?_, ?_⟩
  · intro ships1 ships2 hp
    have h := (hp.flatMap_right wrappedCells).nodup_iff
    rw [← IsDispositionValid_iff_wrapped, ← IsDispositionValid_iff_wrapped] at h
    cases h1 : IsDispositionValid ships1 <;> cases h2 : IsDispositionValid ships2 <;>
      simp_all
  · intro ships1 ships2 hs hv
    rw [IsDispositionValid_iff_wrapped] at hv ⊢
    exact List.Nodup.sublist (flatMap_sublist wrappedCells hs) hv
  · intro ship hno
    rw [IsDispositionValid_iff_wrapped]
    simp only [List.flatMap_cons, List.flatMap_nil, List.append_nil]
    rw [wrappedCells_eq_occupied ship hno]
    exact occupiedCells_nodup ship

/-- Witness of C16: `fleetA` reversed, `fleetA` without its first and last
ship, and the first ship of `fleetA` alone. -/
theorem IsDispositionValid_perm_sublist_witness :
    (fleetA.reverse.Perm fleetA ∧
      IsDispositionValid fleetA.reverse = IsDispositionValid fleetA) ∧
    (List.Sublist [⟨10, 4, false⟩, ⟨20, 3, false⟩, ⟨30, 3, false⟩] fleetA ∧
      IsDispositionValid fleetA = true ∧
      IsDispositionValid [⟨10, 4, false⟩, ⟨20, 3, false⟩, ⟨30, 3, false⟩] = true) ∧
    (NoOverflow ⟨0, 5, false⟩ ∧ IsDispositionValid [⟨0, 5, false⟩] = true) :=
  ⟨⟨List.reverse_perm fleetA,
      IsDispositionValid_perm_sublist.1 _ _ (List.reverse_perm fleetA)⟩,
    ⟨by decide, by decide,
      IsDispositionValid_perm_sublist.2.1 _ fleetA (by decide) (by decide)⟩,
    ⟨by decide, IsDispositionValid_perm_sublist.2.2 ⟨0, 5, false⟩ (by decide)⟩⟩

/-- C12: for an accepted `Play` in a state with both slots occupied: if the
winner after the ply is the id of one of the two participants, the game is
replaced by `NewGame()` (whose winner is none, given that the winner of a new
game is -1), and otherwise the game is the one `RegisterPly` produced; in
both cases both slots hold the same participants as before. -/
theorem Play_accepted_game {G N : Type} (d : Deps G N) (s : Server G N) (b r : Client)
    (inp : PlayRequest) (hb : s.blue = some b) (hr : s.red = some r)
    (hacc : accepted (Play d s inp).1 = true) (hnew : d.Winner d.NewGame = -1) :
    ((d.Winner (d.RegisterPly s.game inp.Id inp.Position).2 = b.ID ∨
        d.Winner (d.RegisterPly s.game inp.Id inp.Position).2 = r.ID) →
      (Play d s inp).2.game = d.NewGame ∧ d.Winner (Play d s inp).2.game = -1) ∧
    (¬ (d.Winner (d.RegisterPly s.game inp.Id inp.Position).2 = b.ID ∨
        d.Winner (d.RegisterPly s.game inp.Id inp.Position).2 = r.ID) →
      (Play d s inp).2.game = (d.RegisterPly s.game inp.Id inp.Position).2) ∧
    (Play d s inp).2.blue = some b ∧ (Play d s inp).2.red = some r := by
  rcases Play_cases d s b r inp hb hr with ⟨_, _, h⟩ | ⟨_, _, h⟩ | ⟨_, _, _, h⟩ |
    ⟨_, _, _, n, h⟩
  · rw [h] at hacc; simp [accepted] at hacc
  · rw [h] at hacc; simp [accepted] at hacc
  · rw [h] at hacc; simp [accepted] at hacc
  · rw [h]
    refine ⟨?_, ?_, hb, hr⟩
    · intro hw
      simp only [hw, if_true]
      exact ⟨trivial, hnew⟩
    · intro hw
      simp only [hw, if_false]

/-- Witness of C12: the winning ply of "A" at `matchPoint`, with the board
engine modelled from the specification. -/
theorem Play_accepted_game_witness :
    (matchPoint.blue = some ⟨"A", 1, 0⟩ ∧ matchPoint.red = some ⟨"B", 2, 1⟩ ∧
      accepted (Play specDeps matchPoint ⟨1, 1⟩).1 = true ∧
      specDeps.Winner specDeps.NewGame = -1 ∧
      specDeps.Winner (specDeps.RegisterPly matchPoint.game 1 1).2 = 1) ∧
    ((Play specDeps matchPoint ⟨1, 1⟩).2.game = specDeps.NewGame ∧
      specDeps.Winner (Play specDeps matchPoint ⟨1, 1⟩).2.game = -1) ∧
    ((Play specDeps matchPoint ⟨1, 1⟩).2.blue = some ⟨"A", 1, 0⟩ ∧
      (Play specDeps matchPoint ⟨1, 1⟩).2.red = some ⟨"B", 2, 1⟩) :=
  ⟨by decide,
    (Play_accepted_game specDeps matchPoint ⟨"A", 1, 0⟩ ⟨"B", 2, 1⟩ ⟨1, 1⟩ (by decide)
      (by decide) (by decide) (by decide)).1 (Or.inl (by decide)),
    (Play_accepted_game specDeps matchPoint ⟨"A", 1, 0⟩ ⟨"B", 2, 1⟩ ⟨1, 1⟩ (by decide)
      (by decide) (by decide) (by decide)).2.2⟩

/-- The two calls of `Notify` made by `DispatchGameStatusNotifications` when
both slots are occupied: the notification of blue goes to blue, then, unless
that failed, the notification of red goes to red. -/
theorem dispatch_sends {G N : Type} (d : Deps G N) (s : Server G N) (b r : Client)
    (hb : s.blue = some b) (hr : s.red = some r) :
    DispatchGameStatusNotifications d s =
      (if (d.Notify s.notifier b (GameStatusNotification d s b)).1 = false then
        (Res.error Err.notify,
          { s with notifier := (d.Notify s.notifier b (GameStatusNotification d s b)).2 })
      else if (d.Notify (d.Notify s.notifier b (GameStatusNotification d s b)).2 r
          (GameStatusNotification d s r)).1 = false then
        (Res.error Err.notify,
          { s with notifier :=
              (d.Notify (d.Notify s.notifier b (GameStatusNotification d s b)).2 r
                (GameStatusNotification d s r)).2 })
      else
        (Res.ok (),
          { s with notifier :=
              (d.Notify (d.Notify s.notifier b (GameStatusNotification d s b)).2 r
                (GameStatusNotification d s r)).2 })) := by
  obtain ⟨blue, red, lastID, current, game, notifier, plies, chans, closed⟩ := s
  simp only at hb hr
  subst hb hr
  unfold DispatchGameStatusNotifications GameStatusNotification
  simp only

/-- C14: the game status notification of a recipient `c` with a positive id
is determined by the turn holder and the winner: the flag `Play` is true iff
the turn holder is the id of `c`; the status is `VICTORY` iff the winner is the
id of `c`, `PLAYING` iff the winner is -1, and `DEFEAT` otherwise; it does not
depend on the notifier. Of two recipients with distinct positive ids at most
one has the flag, at most one has `VICTORY`, and if one has `VICTORY` the other
has `DEFEAT`. And this is what the server sends: with `c` in the blue slot and
`r` in the red slot, `DispatchGameStatusNotifications` passes to `Notify` the
notification of `c` for `c` and then, unless that delivery failed, the
notification of `r` for `r`, and no other message; these two messages have the
properties above. -/
theorem GameStatusNotification_spec {G N : Type} (d : Deps G N) (s : Server G N)
    (c : Client) (hc : 0 < c.ID) :
    (∃ play status, GameStatusNotification d s c = Notification.GameStatus play status ∧
      (play = true ↔ s.current = c.ID) ∧
      (status = GameStatus.VICTORY ↔ d.Winner s.game = c.ID) ∧
      (status = GameStatus.PLAYING ↔ d.Winner s.game = -1) ∧
      (status = GameStatus.DEFEAT ↔ d.Winner s.game ≠ c.ID ∧ d.Winner s.game ≠ -1)) ∧
    (∀ n : N, GameStatusNotification d { s with notifier := n } c =
      GameStatusNotification d s c) ∧
    (∀ c2 : Client, 0 < c2.ID → c.ID ≠ c2.ID →
      ∀ p1 st1 p2 st2, GameStatusNotification d s c = Notification.GameStatus p1 st1 →
        GameStatusNotification d s c2 = Notification.GameStatus p2 st2 →
        ¬ (p1 = true ∧ p2 = true) ∧
        ¬ (st1 = GameStatus.VICTORY ∧ st2 = GameStatus.VICTORY) ∧
        (st1 = GameStatus.VICTORY → st2 = GameStatus.DEFEAT) ∧
        (st2 = GameStatus.VICTORY → st1 = GameStatus.DEFEAT)) ∧
    (∀ r : Client, s.blue = some c → s.red = some r → 0 < r.ID → c.ID ≠ r.ID →
      ∃ p1 st1 p2 st2,
        GameStatusNotification d s c = Notification.GameStatus p1 st1 ∧
        GameStatusNotification d s r = Notification.GameStatus p2 st2 ∧
        DispatchGameStatusNotifications d s =
          (if (d.Notify s.notifier c (Notification.GameStatus p1 st1)).1 = false then
            (Res.error Err.notify,
              { s with notifier :=
                  (d.Notify s.notifier c (Notification.GameStatus p1 st1)).2 })
          else if (d.Notify (d.Notify s.notifier c (Notification.GameStatus p1 st1)).2 r
              (Notification.GameStatus p2 st2)).1 = false then
            (Res.error Err.notify,
              { s with notifier :=
                  (d.Notify (d.Notify s.notifier c (Notification.GameStatus p1 st1)).2 r
                    (Notification.GameStatus p2 st2)).2 })
          else
            (Res.ok (),
              { s with notifier :=
                  (d.Notify (d.Notify s.notifier c (Notification.GameStatus p1 st1)).2 r
                    (Notification.GameStatus p2 st2)).2 })) ∧
        (p1 = true ↔ s.current = c.ID) ∧ (p2 = true ↔ s.current = r.ID) ∧
        (st1 = GameStatus.VICTORY ↔ d.Winner s.game = c.ID) ∧
        (st2 = GameStatus.VICTORY ↔ d.Winner s.game = r.ID) ∧
        ¬ (p1 = true ∧ p2 = true) ∧
        ¬ (st1 = GameStatus.VICTORY ∧ st2 = GameStatus.VICTORY) ∧
        (st1 = GameStatus.VICTORY → st2 = GameStatus.DEFEAT) ∧
        (st2 = GameStatus.VICTORY → st1 = GameStatus.DEFEAT)) := by
  have key : ∀ x : Client, 0 < x.ID → ∀ p st,
      GameStatusNotification d s x = Notification.GameStatus p st →
      (p = true ↔ s.current = x.ID) ∧
      (st = GameStatus.VICTORY ↔ d.Winner s.game = x.ID) ∧
      (st = GameStatus.PLAYING ↔ d.Winner s.game = -1) ∧
      (st = GameStatus.DEFEAT ↔ d.Winner s.game ≠ x.ID ∧ d.Winner s.game ≠ -1) := by
    intro x hx p st h
    unfold GameStatusNotification at h
    simp only [Notification.GameStatus.injEq] at h
    obtain ⟨hp, hst⟩ := h
    subst hp
    refine ⟨by simp, ?_⟩
    by_cases h1 : x.ID = d.Winner s.game
    · rw [if_pos h1] at hst
      subst hst
      have h2 : d.Winner s.game ≠ -1 := by omega
      simp [h1, h2]
    · have h1' : d.Winner s.game ≠ x.ID := fun h => h1 h.symm
      rw [if_neg h1] at hst
      by_cases h2 : d.Winner s.game = -1
      · rw [if_neg (by simp [h2])] at hst
        subst hst
        have h3 : ¬ ((-1 : Int) = x.ID) := by omega
        simp [h2, h3]
      · rw [if_pos h2] at hst
        subst hst
        simp [h1', h2]
  have pair : ∀ c2 : Client, 0 < c2.ID → c.ID ≠ c2.ID →
      ∀ p1 st1 p2 st2, GameStatusNotification d s c = Notification.GameStatus p1 st1 →
        GameStatusNotification d s c2 = Notification.GameStatus p2 st2 →
        ¬ (p1 = true ∧ p2 = true) ∧
        ¬ (st1 = GameStatus.VICTORY ∧ st2 = GameStatus.VICTORY) ∧
        (st1 = GameStatus.VICTORY → st2 = GameStatus.DEFEAT) ∧
        (st2 = GameStatus.VICTORY → st1 = GameStatus.DEFEAT) := by
    intro c2 hc2 hne p1 st1 p2 st2 h1 h2
    obtain ⟨hp1, hv1, _, hd1⟩ := key c hc p1 st1 h1
    obtain ⟨hp2, hv2, _, hd2⟩ := key c2 hc2 p2 st2 h2
    refine ⟨?_, ?_, ?_, ?_⟩
    · rintro ⟨a1, a2⟩
      exact hne ((hp1.1 a1).symm.trans (hp2.1 a2))
    · rintro ⟨a1, a2⟩
      exact hne ((hv1.1 a1).symm.trans (hv2.1 a2))
    · intro a1
      have hw := hv1.1 a1
      exact hd2.2 ⟨by rw [hw]; exact hne, by omega⟩
    · intro a2
      have hw := hv2.1 a2
      exact hd1.2 ⟨by rw [hw]; exact fun h => hne h.symm, by omega⟩
  have shape : ∀ x : Client, ∃ p st,
      GameStatusNotification d s x = Notification.GameStatus p st :=
    fun x => ⟨_, _, rfl⟩
  refine ⟨?_, fun _ => rfl, pair, ?_⟩
  · exact ⟨_, _, rfl, key c hc _ _ rfl⟩
  · intro r hb hr hrpos hne
    obtain ⟨p1, st1, h1⟩ := shape c
    obtain ⟨p2, st2, h2⟩ := shape r
    obtain ⟨hp1, hv1, _, _⟩ := key c hc p1 st1 h1
    obtain ⟨hp2, hv2, _, _⟩ := key r hrpos p2 st2 h2
    obtain ⟨q1, q2, q3, q4⟩ := pair r hrpos hne p1 st1 p2 st2 h1 h2
    refine ⟨p1, st1, p2, st2, h1, h2, ?_, hp1, hp2, hv1, hv2, q1, q2, q3, q4⟩
    rw [dispatch_sends d s c r hb hr, h1, h2]

/-- Witness of C14: the dispatch of the winning ply of "A" (id 1, blue) against
"B" (id 2, red) in `wonState`: the winner is 1 and the turn holder is 2;
stream 0 of "A" gets `VICTORY` without the flag, then stream 1 of "B" gets
`DEFEAT` with the flag, and these are the two messages last delivered. -/
theorem GameStatusNotification_spec_witness :
    ((0 : Int) < (⟨"A", 1, 0⟩ : Client).ID ∧ wonState.blue = some ⟨"A", 1, 0⟩ ∧
      wonState.red = some ⟨"B", 2, 1⟩ ∧ specDeps.Winner wonState.game = 1 ∧
      wonState.current = 2) ∧
    (GameStatusNotification specDeps wonState ⟨"A", 1, 0⟩ =
        Notification.GameStatus false GameStatus.VICTORY ∧
      GameStatusNotification specDeps wonState ⟨"B", 2, 1⟩ =
        Notification.GameStatus true GameStatus.DEFEAT ∧
      (DispatchGameStatusNotifications specDeps wonState).1 = Res.ok () ∧
      (DispatchGameStatusNotifications specDeps wonState).2.notifier.sent =
        (1, Notification.GameStatus true GameStatus.DEFEAT) ::
          (0, Notification.GameStatus false GameStatus.VICTORY) ::
          wonState.notifier.sent) ∧
    (GameStatus.VICTORY = GameStatus.VICTORY → GameStatus.DEFEAT = GameStatus.DEFEAT) :=
  ⟨by decide, by decide,
    ((GameStatusNotification_spec specDeps wonState ⟨"A", 1, 0⟩ (by decide)).2.2.1
      ⟨"B", 2, 1⟩ (by decide) (by decide) false GameStatus.VICTORY true GameStatus.DEFEAT
      (by decide) (by decide)).2.2.1⟩

theorem Connect_ne_panic {G N : Type} (d : Deps G N) (s : Server G N) (inp : ConnectRequest)
    (stream : Nat) : (Connect d s inp stream).1 ≠ Res.panic := by
  obtain ⟨blue, red, lastID, current, game, notifier, plies, chans, closed⟩ := s
  cases blue with
  | some b0 =>
    cases red with
    | some r0 => simp [Connect]
    | none =>
      simp only [Connect, Option.isSome_some, Option.isSome_none, Option.isNone_some,
        and_false, if_false, Bool.false_eq_true]
      split
      · simp
      · split
        · simp
        · generalize (⟨_, _, _, _, _, _, _, _, _⟩ : Server G N) = s6
          rw [(beginMatch_spec d s6).1]
          simp
  | none =>
    simp only [Connect, Option.isSome_none, Option.isNone_none,
      false_and, if_false, Bool.false_eq_true, if_true]
    split
    · simp
    · split
      · simp
      · generalize (⟨_, _, _, _, _, _, _, _, _⟩ : Server G N) = s6
        rw [(beginMatch_spec d s6).1]
        simp

/-- What `Disconnect` changes: nothing when it returns the error; otherwise
one slot is emptied and the turn holder is -1. -/
theorem Disconnect_frame {G N : Type} (s : Server G N) (id : Int) :
    (Disconnect s id).2.lastID = s.lastID ∧ (Disconnect s id).2.plies = s.plies ∧
      ((Disconnect s id).2.blue = s.blue ∨ (Disconnect s id).2.blue = none) ∧
      ((Disconnect s id).2.red = s.red ∨ (Disconnect s id).2.red = none) ∧
      (Disconnect s id = (Res.error (Err.unknownId id), s) ∨
        ((Disconnect s id).1 ≠ Res.error (Err.unknownId id) ∧
          (Disconnect s id).2.current = -1 ∧
          ((Disconnect s id).2.blue = none ∨ (Disconnect s id).2.red = none))) := by
  unfold Disconnect
  by_cases h1 : holdsID s.blue id = true
  · rw [if_pos h1]
    unfold disconnectClient
    cases s.blue with
    | none => simp
    | some c => simp only; split <;> simp
  · rw [if_neg h1]
    by_cases h2 : holdsID s.red id = true
    · rw [if_pos h2]
      unfold disconnectClient
      cases s.red with
      | none => simp
      | some c => simp only; split <;> simp
    · rw [if_neg h2]
      simp

/-- What a `Disconnect` step changes. -/
theorem handle_disconnect_frame {G N : Type} (d : Deps G N) (s : Server G N) (id : Int) :
    (handle d s (Call.disconnect id)).lastID = s.lastID ∧
      (handle d s (Call.disconnect id)).plies = s.plies ∧
      ((handle d s (Call.disconnect id)).blue = s.blue ∨
        (handle d s (Call.disconnect id)).blue = none) ∧
      ((handle d s (Call.disconnect id)).red = s.red ∨
        (handle d s (Call.disconnect id)).red = none) ∧
      (handle d s (Call.disconnect id) = s ∨
        ((handle d s (Call.disconnect id)).current = -1 ∧
          ((handle d s (Call.disconnect id)).blue = none ∨
            (handle d s (Call.disconnect id)).red = none))) := by
  obtain ⟨h1, h2, h3, h4, h5⟩ := Disconnect_frame s id
  simp only [handle]
  refine ⟨h1, h2, h3, h4, ?_⟩
  rcases h5 with h | ⟨_, h⟩
  · left; rw [h]
  · right; exact h

/-- What the return of a `Connect` changes: the notifier, and its slot, which
it empties whoever holds it; the turn holder is left as it is. -/
theorem handle_connectReturn_frame {G N : Type} (d : Deps G N) (s : Server G N)
    (c : Client) (slot : Slot) :
    (handle d s (Call.connectReturn c slot)).lastID = s.lastID ∧
      (handle d s (Call.connectReturn c slot)).plies = s.plies ∧
      (handle d s (Call.connectReturn c slot)).current = s.current ∧
      ((handle d s (Call.connectReturn c slot)).blue = s.blue ∨
        (handle d s (Call.connectReturn c slot)).blue = none) ∧
      ((handle d s (Call.connectReturn c slot)).red = s.red ∨
        (handle d s (Call.connectReturn c slot)).red = none) := by
  simp only [handle]
  split
  · unfold ConnectReturn connectDeferred
    cases slot with
    | blue => exact ⟨rfl, rfl, rfl, Or.inr rfl, Or.inl rfl⟩
    | red => exact ⟨rfl, rfl, rfl, Or.inl rfl, Or.inr rfl⟩
  · exact ⟨rfl, rfl, rfl, Or.inl rfl, Or.inl rfl⟩

/-- With an empty slot `Play` changes at most the game. -/
theorem Play_slot_empty_state {G N : Type} (d : Deps G N) (s : Server G N)
    (inp : PlayRequest) (h : s.blue = none ∨ s.red = none) :
    ∃ g, (Play d s inp).2 = { s with game := g } := by
  obtain ⟨blue, red, lastID, current, game, notifier, plies, chans, closed⟩ := s
  cases blue with
  | none => exact ⟨game, rfl⟩
  | some b =>
    cases red with
    | some r => simp at h
    | none =>
      by_cases h1 : b.ID = inp.Id
      · by_cases ht : inp.Id = current
        · by_cases hp : inp.Position < 0 ∨ inp.Position > 100
          · refine ⟨game, ?_⟩
            simp [Play, h1, playAs, ht, hp]
          · subst ht
            refine ⟨(d.RegisterPly game b.ID inp.Position).2, ?_⟩
            simp [Play, h1, playAs, hp, nextTurn]
        · refine ⟨game, ?_⟩
          simp [Play, h1, playAs, ht]
      · refine ⟨game, ?_⟩
        simp [Play, h1]

/-- What `Play` changes: never the slots or the id counter; the turn holder
only to the id of a participant while both slots are occupied. -/
theorem Play_frame {G N : Type} (d : Deps G N) (s : Server G N) (inp : PlayRequest) :
    (Play d s inp).2.blue = s.blue ∧ (Play d s inp).2.red = s.red ∧
      (Play d s inp).2.lastID = s.lastID ∧
      ((Play d s inp).2.current = s.current ∨
        ∃ b r, s.blue = some b ∧ s.red = some r ∧
          ((Play d s inp).2.current = b.ID ∨ (Play d s inp).2.current = r.ID)) := by
  cases hb : s.blue with
  | none =>
    obtain ⟨g, hg⟩ := Play_slot_empty_state d s inp (Or.inl hb)
    rw [hg]
    exact ⟨hb, rfl, rfl, Or.inl rfl⟩
  | some b =>
    cases hr : s.red with
    | none =>
      obtain ⟨g, hg⟩ := Play_slot_empty_state d s inp (Or.inr hr)
      rw [hg]
      exact ⟨hb, hr, rfl, Or.inl rfl⟩
    | some r =>
      rcases Play_cases d s b r inp hb hr with ⟨_, _, h⟩ | ⟨_, _, h⟩ | ⟨_, _, _, h⟩ |
        ⟨_, _, _, n, h⟩
      · rw [h]; exact ⟨hb, hr, rfl, Or.inl rfl⟩
      · rw [h]; exact ⟨hb, hr, rfl, Or.inl rfl⟩
      · rw [h]; exact ⟨hb, hr, rfl, Or.inl rfl⟩
      · rw [h]
        refine ⟨hb, hr, rfl, Or.inr ⟨b, r, rfl, rfl, ?_⟩⟩
        simp only
        split
        · exact Or.inr rfl
        · exact Or.inl rfl

/-- One step keeps `IdInv` while the id counter does not overflow; the id
counter grows by at most one, and only in a `Connect`; an admitted id is
larger than the id counter was. -/
theorem handle_ids {G N : Type} (d : Deps G N) (s : Server G N) (call : Call)
    (hinv : IdInv s) (hlt : s.lastID + (connectCount [call] : Int) < 2147483648) :
    IdInv (handle d s call) ∧ s.lastID ≤ (handle d s call).lastID ∧
      (handle d s call).lastID ≤ s.lastID + (connectCount [call] : Int) ∧
      ∀ id ∈ admittedId d s call, s.lastID < id ∧ id ≤ (handle d s call).lastID := by
  obtain ⟨h0, hbl, hrd, hne⟩ := hinv
  cases call with
  | connect inp stream =>
    simp only [connectCount, zero_add, Nat.cast_one] at hlt
    have hw : wrap32 (s.lastID + 1) = s.lastID + 1 := wrap32_of_range (by omega) hlt
    simp only [handle, admittedId, connectCount, zero_add, Nat.cast_one]
    cases hres : (Connect d s inp stream).1 with
    | panic => exact absurd hres (Connect_ne_panic d s inp stream)
    | ok a =>
      obtain ⟨c, slot⟩ := a
      have h : Connect d s inp stream = (Res.ok (c, slot), (Connect d s inp stream).2) :=
        Prod.ext hres rfl
      obtain ⟨hc, _, hl, _, _, _, hslot, _⟩ := Connect_ok d s _ inp stream c slot h
      have hcid : c.ID = s.lastID + 1 := by rw [hc]; exact hw
      rw [hw] at hl
      refine ⟨⟨by omega, ?_, ?_, ?_⟩, by omega, by omega, ?_⟩
      · intro x hx
        rcases hslot with ⟨_, _, hb1, _⟩ | ⟨_, _, _, hb1, _⟩
        · rw [hb1] at hx; cases hx; omega
        · rw [hb1] at hx
          have := hbl x hx
          omega
      · intro x hx
        rcases hslot with ⟨_, _, _, hr1⟩ | ⟨_, _, _, _, hr1⟩
        · rw [hr1] at hx
          have := hrd x hx
          omega
        · rw [hr1] at hx; cases hx; omega
      · intro b r hb hr
        rcases hslot with ⟨_, _, hb1, hr1⟩ | ⟨_, _, _, hb1, hr1⟩
        · rw [hb1] at hb; cases hb
          rw [hr1] at hr
          have := hrd r hr
          omega
        · rw [hr1] at hr; cases hr
          rw [hb1] at hb
          have := hbl b hb
          omega
      · intro id hid
        simp only [List.mem_singleton] at hid
        omega
    | error e =>
      have h : Connect d s inp stream = (Res.error e, (Connect d s inp stream).2) :=
        Prod.ext hres rfl
      have frame : (Connect d s inp stream).2.blue = s.blue ∧
          (Connect d s inp stream).2.red = s.red ∧
          ((Connect d s inp stream).2.lastID = s.lastID ∨
            (Connect d s inp stream).2.lastID = s.lastID + 1) := by
        rcases Connect_error d s _ inp stream e h with ⟨_, _, _, h1⟩ | ⟨_, _, h1⟩ |
          ⟨_, h1, h2, _, _, h3, _⟩
        · rw [h1]; exact ⟨rfl, rfl, Or.inl rfl⟩
        · rw [h1]; exact ⟨rfl, rfl, Or.inr hw⟩
        · exact ⟨h1, h2, Or.inr (h3.trans hw)⟩
      obtain ⟨f1, f2, f3⟩ := frame
      refine ⟨⟨by omega, ?_, ?_, ?_⟩, by omega, by omega, by simp⟩
      · intro x hx
        rw [f1] at hx
        have := hbl x hx
        omega
      · intro x hx
        rw [f2] at hx
        have := hrd x hx
        omega
      · intro b r hb hr
        rw [f1] at hb; rw [f2] at hr
        exact hne b r hb hr
  | disconnect id =>
    obtain ⟨h1, _, h3, h4, _⟩ := handle_disconnect_frame d s id
    simp only [admittedId, connectCount, Nat.cast_zero, add_zero]
    refine ⟨⟨by omega, ?_, ?_, ?_⟩, by omega, by omega, by simp⟩
    · intro x hx
      rcases h3 with h | h <;> rw [h] at hx
      · rw [h1]; exact hbl x hx
      · cases hx
    · intro x hx
      rcases h4 with h | h <;> rw [h] at hx
      · rw [h1]; exact hrd x hx
      · cases hx
    · intro b r hb hr
      rcases h3 with h | h <;> rw [h] at hb
      · rcases h4 with h' | h' <;> rw [h'] at hr
        · exact hne b r hb hr
        · cases hr
      · cases hb
  | play inp =>
    obtain ⟨h1, h2, h3, _⟩ := Play_frame d s inp
    simp only [handle, admittedId, connectCount, Nat.cast_zero, add_zero]
    rw [IdInv, h1, h2, h3]
    exact ⟨⟨h0, hbl, hrd, hne⟩, le_refl _, le_refl _, by simp⟩
  | connectReturn c slot =>
    obtain ⟨h1, _, _, h3, h4⟩ := handle_connectReturn_frame d s c slot
    simp only [admittedId, connectCount, Nat.cast_zero, add_zero]
    refine ⟨⟨by omega, ?_, ?_, ?_⟩, by omega, by omega, by simp⟩
    · intro x hx
      rcases h3 with h | h <;> rw [h] at hx
      · rw [h1]; exact hbl x hx
      · cases hx
    · intro x hx
      rcases h4 with h | h <;> rw [h] at hx
      · rw [h1]; exact hrd x hx
      · cases hx
    · intro b r hb hr
      rcases h3 with h | h <;> rw [h] at hb
      · rcases h4 with h' | h' <;> rw [h'] at hr
        · exact hne b r hb hr
        · cases hr
      · cases hb

theorem connectCount_cons (call : Call) (rest : List Call) :
    connectCount (call :: rest) = connectCount [call] + connectCount rest := by
  cases call <;> simp [connectCount]
  omega

theorem connectCount_append (l1 l2 : List Call) :
    connectCount (l1 ++ l2) = connectCount l1 + connectCount l2 := by
  induction l1 with
  | nil => simp [connectCount]
  | cons call rest ih =>
    rw [List.cons_append, connectCount_cons, ih, connectCount_cons call rest]
    omega

theorem handleAll_append {G N : Type} (d : Deps G N) (s : Server G N) (l1 l2 : List Call) :
    handleAll d s (l1 ++ l2) = handleAll d (handleAll d s l1) l2 := by
  induction l1 generalizing s with
  | nil => rfl
  | cons call rest ih =>
    rw [List.cons_append]
    simp only [handleAll]
    exact ih (handle d s call)

/-- A sequence of calls keeps `IdInv` while the id counter does not overflow;
the admitted ids are larger than the id counter was, at most what it has
become, and increase strictly. -/
theorem handleAll_ids {G N : Type} (d : Deps G N) (calls : List Call) :
    ∀ s : Server G N, IdInv s → s.lastID + (connectCount calls : Int) < 2147483648 →
      IdInv (handleAll d s calls) ∧ s.lastID ≤ (handleAll d s calls).lastID ∧
        (handleAll d s calls).lastID ≤ s.lastID + (connectCount calls : Int) ∧
        (∀ id ∈ admittedIds d s calls, s.lastID < id ∧ id ≤ (handleAll d s calls).lastID) ∧
        (admittedIds d s calls).Pairwise (fun x y => x < y) := by
  induction calls with
  | nil =>
    intro s hinv _
    simp [handleAll, admittedIds, connectCount, hinv]
  | cons call rest ih =>
    intro s hinv hlt
    rw [connectCount_cons] at hlt
    push_cast at hlt
    have hc0 : (0 : Int) ≤ (connectCount rest : Int) := Int.ofNat_nonneg _
    have hc1 : (0 : Int) ≤ (connectCount [call] : Int) := Int.ofNat_nonneg _
    obtain ⟨i1, l1, u1, a1⟩ := handle_ids d s call hinv (by omega)
    obtain ⟨i2, l2, u2, a2, p2⟩ := ih (handle d s call) i1 (by omega)
    simp only [handleAll, admittedIds]
    rw [connectCount_cons]
    push_cast
    refine ⟨i2, by omega, by omega, ?_, ?_⟩
    · intro id hid
      rcases List.mem_append.1 hid with h | h
      · have := a1 id h
        omega
      · have := a2 id h
        omega
    · rw [List.pairwise_append]
      refine ⟨?_, p2, ?_⟩
      · cases call with
        | connect inp stream =>
          simp only [admittedId]
          split <;> simp
        | disconnect id => simp [admittedId]
        | play inp => simp [admittedId]
        | connectReturn c slot => simp [admittedId]
      · intro x hx y hy
        have := a1 x hx
        have := a2 y hy
        omega

theorem IdInv_NewServer {G N : Type} (d : Deps G N) : IdInv (NewServer d) := by
  simp [IdInv, NewServer]

/-- A `Connect`, `Disconnect` or `Play` call keeps `TurnInv`. -/
theorem handle_turn {G N : Type} (d : Deps G N) (s : Server G N) (call : Call)
    (hcall : ∀ c slot, call ≠ Call.connectReturn c slot)
    (hinv : TurnInv s) : TurnInv (handle d s call) := by
  cases call with
  | connectReturn c slot => exact absurd rfl (hcall c slot)
  | connect inp stream =>
    simp only [handle]
    cases hres : (Connect d s inp stream).1 with
    | panic => exact absurd hres (Connect_ne_panic d s inp stream)
    | ok a =>
      obtain ⟨c, slot⟩ := a
      have h : Connect d s inp stream = (Res.ok (c, slot), (Connect d s inp stream).2) :=
        Prod.ext hres rfl
      obtain ⟨_, _, _, _, _, _, hslot, hpair, hsame⟩ := Connect_ok d s _ inp stream c slot h
      cases hr1 : (Connect d s inp stream).2.red with
      | none =>
        have hcur := (hsame hr1).2
        rcases hinv with h0 | h0 | ⟨b, r, hb, hr, _⟩
        · exact Or.inl (hcur.trans h0)
        · exact Or.inr (Or.inl (hcur.trans h0))
        · rcases hslot with ⟨_, hb0, _⟩ | ⟨_, _, hr0, _⟩
          · rw [hb] at hb0; cases hb0
          · rw [hr] at hr0; cases hr0
      | some r1 =>
        have hm := (hpair (by rw [hr1]; simp)).2
        cases hb1 : (Connect d s inp stream).2.blue with
        | none => rw [hb1] at hm; simp at hm
        | some b1 =>
          rw [hb1] at hm
          simp only [Option.map_some', Option.some.injEq] at hm
          exact Or.inr (Or.inr ⟨b1, r1, hb1, hr1, Or.inl hm.symm⟩)
    | error e =>
      have h : Connect d s inp stream = (Res.error e, (Connect d s inp stream).2) :=
        Prod.ext hres rfl
      have frame : (Connect d s inp stream).2.blue = s.blue ∧
          (Connect d s inp stream).2.red = s.red ∧
          (Connect d s inp stream).2.current = s.current := by
        rcases Connect_error d s _ inp stream e h with ⟨_, _, _, h1⟩ | ⟨_, _, h1⟩ |
          ⟨_, h1, h2, h3, _⟩
        · rw [h1]; exact ⟨rfl, rfl, rfl⟩
        · rw [h1]; exact ⟨rfl, rfl, rfl⟩
        · exact ⟨h1, h2, h3⟩
      obtain ⟨f1, f2, f3⟩ := frame
      unfold TurnInv
      rw [f1, f2, f3]
      exact hinv
  | disconnect id =>
    obtain ⟨_, _, _, _, h5⟩ := handle_disconnect_frame d s id
    rcases h5 with h | ⟨h, _⟩
    · rw [h]; exact hinv
    · exact Or.inr (Or.inl h)
  | play inp =>
    obtain ⟨h1, h2, _, h4⟩ := Play_frame d s inp
    simp only [handle]
    rcases h4 with h | ⟨b, r, hb, hr, h⟩
    · unfold TurnInv
      rw [h1, h2, h]
      exact hinv
    · exact Or.inr (Or.inr ⟨b, r, h1.trans hb, h2.trans hr, h⟩)

/-- A sequence of `Connect`, `Disconnect` and `Play` calls in which no
`Connect` returns keeps `TurnInv`. -/
theorem handleAll_turn {G N : Type} (d : Deps G N) (calls : List Call) :
    (∀ c slot, Call.connectReturn c slot ∉ calls) →
      ∀ s : Server G N, TurnInv s → TurnInv (handleAll d s calls) := by
  induction calls with
  | nil => intro _ s h; exact h
  | cons call rest ih =>
    intro hno s h
    have h1 : ∀ c slot, call ≠ Call.connectReturn c slot := by
      intro c slot heq
      exact hno c slot (by rw [heq]; exact List.mem_cons_self _ _)
    have h2 : ∀ c slot, Call.connectReturn c slot ∉ rest :=
      fun c slot hm => hno c slot (List.mem_cons_of_mem _ hm)
    exact ih h2 (handle d s call) (handle_turn d s call h1 h)

/-- C11: in the state reached from a new server by any sequence of `Connect`,
`Disconnect` and `Play` calls (and of returns of `Connect` calls, at any time
after their channel is closed) with fewer than 2^31 `Connect` calls: the ids of
the admitted clients increase strictly in the order of admission, are
positive and at most `lastID`; each admitted client gets an id larger than
the id counter (the largest id assigned so far) and than the ids in the slots
at that time; every id in an occupied slot is positive and at most `lastID`;
and when both slots are occupied their ids are different. -/
theorem ids_positive_unique_increasing {G N : Type} (d : Deps G N) (calls : List Call)
    (h : connectCount calls < 2147483648) :
    (admittedIds d (NewServer d) calls).Pairwise (fun x y => x < y) ∧
    (∀ id ∈ admittedIds d (NewServer d) calls,
      0 < id ∧ id ≤ (handleAll d (NewServer d) calls).lastID) ∧
    (∀ (pre post : List Call) (call : Call), calls = pre ++ call :: post →
      ∀ id ∈ admittedId d (handleAll d (NewServer d) pre) call,
        (handleAll d (NewServer d) pre).lastID < id ∧
        ∀ c, (handleAll d (NewServer d) pre).blue = some c ∨
            (handleAll d (NewServer d) pre).red = some c → c.ID < id) ∧
    (∀ c, (handleAll d (NewServer d) calls).blue = some c ∨
        (handleAll d (NewServer d) calls).red = some c →
      0 < c.ID ∧ c.ID ≤ (handleAll d (NewServer d) calls).lastID) ∧
    (∀ b r, (handleAll d (NewServer d) calls).blue = some b →
      (handleAll d (NewServer d) calls).red = some r → b.ID ≠ r.ID) := by
  have hz : (NewServer d).lastID = 0 := rfl
  have hcast : ((connectCount calls : Nat) : Int) < 2147483648 := by exact_mod_cast h
  obtain ⟨⟨_, hbl, hrd, hne⟩, _, _, ha, hp⟩ :=
    handleAll_ids d calls (NewServer d) (IdInv_NewServer d) (by rw [hz]; omega)
  refine ⟨hp, ?_, ?_, ?_, hne⟩
  · intro id hid
    have := ha id hid
    rw [hz] at this
    exact this
  · intro pre post call hcalls id hid
    have hcc : connectCount calls =
        connectCount pre + (connectCount [call] + connectCount post) := by
      rw [hcalls, connectCount_append, connectCount_cons]
    have hcc' : (connectCount calls : Int) =
        (connectCount pre : Int) + ((connectCount [call] : Int) + (connectCount post : Int)) := by
      exact_mod_cast hcc
    have hpost : (0 : Int) ≤ (connectCount post : Int) := Int.ofNat_nonneg _
    have hone : (0 : Int) ≤ (connectCount [call] : Int) := Int.ofNat_nonneg _
    obtain ⟨ipre, _, upre, _, _⟩ :=
      handleAll_ids d pre (NewServer d) (IdInv_NewServer d) (by rw [hz]; omega)
    rw [hz] at upre
    obtain ⟨_, _, _, hadm⟩ := handle_ids d (handleAll d (NewServer d) pre) call ipre (by omega)
    have hlt := (hadm id hid).1
    refine ⟨hlt, ?_⟩
    intro c hc
    obtain ⟨_, ib, ir, _⟩ := ipre
    rcases hc with hc | hc
    · have := ib c hc; omega
    · have := ir c hc; omega
  · intro c hc
    rcases hc with hc | hc
    · exact hbl c hc
    · exact hrd c hc

/-- Witness of C11: the seven calls of `sessionCalls`, which admit the ids
1, 2 and 4 (id 3 goes to a rejected placement). -/
theorem ids_positive_unique_increasing_witness :
    connectCount sessionCalls < 2147483648 ∧
      admittedIds specDeps (NewServer specDeps) sessionCalls = [1, 2, 4] ∧
      (handleAll specDeps (NewServer specDeps) sessionCalls).lastID = 4 ∧
      (admittedIds specDeps (NewServer specDeps) sessionCalls).Pairwise (fun x y => x < y) :=
  ⟨by decide, by decide, by decide,
    (ids_positive_unique_increasing specDeps sessionCalls (by decide)).1⟩

/-- Where the turn holder invariant does hold: in the state reached from a new
server by `Connect`, `Disconnect` and `Play` calls with no return of a
`Connect` among the steps, `TurnInv` holds; and in every state `Play` is not
`ACCEPTED` unless both slots are occupied. -/
theorem turn_invariant_without_return {G N : Type} (d : Deps G N) (calls : List Call)
    (hno : ∀ c slot, Call.connectReturn c slot ∉ calls) :
    TurnInv (handleAll d (NewServer d) calls) ∧
      ∀ (s : Server G N) (inp : PlayRequest), accepted (Play d s inp).1 = true →
        ∃ b r, s.blue = some b ∧ s.red = some r := by
  refine ⟨handleAll_turn d calls hno (NewServer d) (Or.inl rfl), ?_⟩
  intro s inp hacc
  cases hb : s.blue with
  | none =>
    exfalso
    rcases Play_slot_empty d s inp (Or.inl hb) with h | h | ⟨_, h⟩ <;>
      simp [h, accepted] at hacc
  | some b =>
    cases hr : s.red with
    | none =>
      exfalso
      rcases Play_slot_empty d s inp (Or.inr hr) with h | h | ⟨_, h⟩ <;>
        simp [h, accepted] at hacc
    | some r => exact ⟨b, r, rfl, rfl⟩

/-- C15 (evaluation at the failing input): "A" (id 1) and "B" (id 2) are
admitted, "A" is disconnected (the turn holder becomes -1 and the channel of
"A" is closed), "C" (id 3) is admitted into the blue slot and gets the turn.
Then the `Connect` call of "A" returns and its deferred `s.blue = nil` empties
the slot of "C". In the state reached blue is nil, red holds "B" and the turn
holder is 3: not 0, not -1, and not the id of a participant in a slot while
both slots are occupied. -/
theorem late_Connect_return_breaks_turn_invariant :
    ((handleAll specDeps (NewServer specDeps) (lateReturnCalls.take 4)).blue =
        some ⟨"C", 3, 2⟩ ∧
      (handleAll specDeps (NewServer specDeps) (lateReturnCalls.take 4)).red =
        some ⟨"B", 2, 1⟩ ∧
      (handleAll specDeps (NewServer specDeps) (lateReturnCalls.take 4)).current = 3 ∧
      (⟨"A", 1, 0⟩ : Client).leave ∈
        (handleAll specDeps (NewServer specDeps) (lateReturnCalls.take 4)).closed) ∧
    ((handleAll specDeps (NewServer specDeps) lateReturnCalls).blue = none ∧
      (handleAll specDeps (NewServer specDeps) lateReturnCalls).red = some ⟨"B", 2, 1⟩ ∧
      (handleAll specDeps (NewServer specDeps) lateReturnCalls).current = 3) ∧
    ¬ TurnInv (handleAll specDeps (NewServer specDeps) lateReturnCalls) := by
  refine ⟨by decide, by decide, ?_⟩
  have hb : (handleAll specDeps (NewServer specDeps) lateReturnCalls).blue = none := by
    decide
  have hc : (handleAll specDeps (NewServer specDeps) lateReturnCalls).current = 3 := by
    decide
  rintro (h | h | ⟨b, r, h, _⟩)
  · rw [hc] at h; cases h
  · rw [hc] at h; cases h
  · rw [hb] at h; cases h

end Deadpool
